import Mathlib

/-!
# Earthquake visualizer backend: filter query builder and token gate

A shallow embedding of `backend/main.go`.  Go strings are modelled by Lean
strings, Go `int` by `Int`, maps by lookup functions, and a runtime panic or
an error return by `Option` / `Except`.
-/

namespace EarthquakeVisualizer

set_option maxRecDepth 100000

/-! ## Library functions used by the program -/

/-- Go `strconv.Itoa`: the decimal text of an integer, with a leading minus
sign for negative numbers. -/
def Itoa (n : Int) : String :=
  if n < 0 then "-" ++ Nat.repr n.natAbs else Nat.repr n.toNat

/-- Go `strings.Join(elems, sep)`. -/
def Join : List String → String → String
  | [], _ => ""
  | [a], _ => a
  | a :: b :: rest, sep => a ++ sep ++ Join (b :: rest) sep

/-- Go `url.Values` (`map[string][]string`): the parsed query string.  A key
is present when the lookup returns `some`. -/
abbrev Values := String → Option (List String)

/-! ## The filter query builder of `getEarthquakes` -/

/-- The three local variables `conditions`, `args` and `argID` of
`getEarthquakes`. -/
structure FilterState where
  conditions : List String
  args : List String
  argID : Int
deriving DecidableEq, Repr

/-- One `if val, ok := query[name]; ok { ... }` block of `getEarthquakes`:
`pred` is the string literal in front of the placeholder number, such as
`"depth >= $"`.  `none` is the index-out-of-range panic of `val[0]` on an
empty slice. -/
def addFilter (query : Values) (name pred : String) (st : FilterState) :
    Option FilterState :=
  match query name with
  | none => some st
  | some [] => none
  | some (v :: _) =>
    some { conditions := st.conditions ++ [pred ++ Itoa st.argID]
           args := st.args ++ [v]
           argID := st.argID + 1 }

/-- The state before the first block: no condition, no argument, `argID := 1`. -/
def initFilterState : FilterState :=
  { conditions := [], args := [], argID := 1 }

/-- The ten blocks of `getEarthquakes` (lines 528-577), in source order. -/
def buildFilters (query : Values) : Option FilterState := do
  let st ← addFilter query "time_start" "time >= $" initFilterState
  let st ← addFilter query "time_end" "time <= $" st
  let st ← addFilter query "depth_min" "depth >= $" st
  let st ← addFilter query "depth_max" "depth <= $" st
  let st ← addFilter query "magnitude_min" "magnitude >= $" st
  let st ← addFilter query "magnitude_max" "magnitude <= $" st
  let st ← addFilter query "longitude_min" "longitude >= $" st
  let st ← addFilter query "longitude_max" "longitude <= $" st
  let st ← addFilter query "latitude_min" "latitude >= $" st
  let st ← addFilter query "latitude_max" "latitude <= $" st
  pure st

/-- The base statement of `getEarthquakes` (line 579). -/
def baseSelect : String :=
  "SELECT id, time, latitude, longitude, depth, magnitude, place, alert, tsunami, url FROM earthquakes"

/-- Lines 579-582: the query text from the collected conditions. -/
def queryText (conditions : List String) : String :=
  if conditions.length > 0 then
    baseSelect ++ (" WHERE " ++ Join conditions " AND ")
  else
    baseSelect

/-- The query text and the argument list that `getEarthquakes` hands to
`db.Query` (lines 523-586). -/
def earthquakeQuery (query : Values) : Option (String × List String) := do
  let st ← buildFilters query
  pure (queryText st.conditions, st.args)

/-! ## Specification vocabulary for the builder -/

/-- A recognized filter parameter: its name, its column and its comparison
operator. -/
structure FilterParam where
  name : String
  column : String
  op : String
deriving DecidableEq, Repr

/-- The ten recognized parameters in the fixed order of the specification. -/
def filterParams : List FilterParam :=
  [ ⟨"time_start", "time", ">="⟩, ⟨"time_end", "time", "<="⟩,
    ⟨"depth_min", "depth", ">="⟩, ⟨"depth_max", "depth", "<="⟩,
    ⟨"magnitude_min", "magnitude", ">="⟩, ⟨"magnitude_max", "magnitude", "<="⟩,
    ⟨"longitude_min", "longitude", ">="⟩, ⟨"longitude_max", "longitude", "<="⟩,
    ⟨"latitude_min", "latitude", ">="⟩, ⟨"latitude_max", "latitude", "<="⟩ ]

/-- The recognized parameters present in a query map, in the fixed order. -/
def presentParams (query : Values) : List FilterParam :=
  filterParams.filter (fun p => (query p.name).isSome)

/-- Every present key carries at least one value, as `url.ParseQuery`
guarantees. -/
def WellFormed (query : Values) : Prop :=
  ∀ k, query k ≠ some []

/-- The predicate text of the specification: `<column> <op> $<k>`. -/
def predicateText (p : FilterParam) (k : Nat) : String :=
  p.column ++ " " ++ p.op ++ " $" ++ Itoa k

/-- The first value of a parameter, the empty string when there is none. -/
def firstValue (query : Values) (name : String) : String :=
  match query name with
  | some (v :: _) => v
  | _ => ""

/-- The request `depth_min=10&magnitude_max=5`. -/
def sampleQuery : Values := fun k =>
  if k = "depth_min" then some ["10"]
  else if k = "magnitude_max" then some ["5"]
  else none

/-- The literal in front of the placeholder number, `<column> <op> $`. -/
def FilterParam.pred (p : FilterParam) : String :=
  p.column ++ " " ++ p.op ++ " $"

/-- One block of the builder, read off the parameter table. -/
def stepParam (query : Values) (st : FilterState) (p : FilterParam) :
    Option FilterState :=
  addFilter query p.name p.pred st

/-- Predicates for a list of parameters, numbered from `start`. -/
def numbered : Int → List FilterParam → List String
  | _, [] => []
  | start, p :: ps => (p.pred ++ Itoa start) :: numbered (start + 1) ps

/-- A second request with the same parameter names as `sampleQuery` and
other values. -/
def sampleQueryOther : Values := fun k =>
  if k = "depth_min" then some ["0 OR 1=1"]
  else if k = "magnitude_max" then some ["x; DROP TABLE earthquakes"]
  else none

/-- The request `depth_min=10&depth_min=20&depth_min=30&magnitude_max=5`. -/
def duplicateQuery : Values := fun k =>
  if k = "depth_min" then some ["10", "20", "30"]
  else if k = "magnitude_max" then some ["5"]
  else none

/-! ## Strings, time, HTTP and context values -/

/-- Replacement of the first occurrence of `old` by `new` in a list of
characters; the list is returned unchanged when `old` does not occur. -/
def replaceFirstChars (old new : List Char) : List Char → List Char
  | [] => if old.isPrefixOf [] then new else []
  | c :: cs =>
    if old.isPrefixOf (c :: cs) then new ++ List.drop old.length (c :: cs)
    else c :: replaceFirstChars old new cs

/-- Go `strings.Replace(s, old, new, 1)`. -/
def ReplaceFirst (s old new : String) : String :=
  ⟨replaceFirstChars old.data new.data s.data⟩

/-- Go `strings.TrimPrefix(s, pre)`. -/
def TrimPrefix (s pre : String) : String :=
  if pre.data.isPrefixOf s.data then ⟨List.drop pre.data.length s.data⟩ else s

/-- Go `time.Time`, as nanoseconds since the Unix epoch. -/
structure Time where
  nanos : Int
deriving DecidableEq, Repr

/-- Go `time.Hour`, a duration in nanoseconds. -/
def Hour : Int := 60 * 60 * 1000000000

/-- Go `Time.Add`. -/
def Time.Add (t : Time) (d : Int) : Time := ⟨t.nanos + d⟩

/-- Go `Time.Unix`: whole seconds since the epoch, rounded down. -/
def Time.Unix (t : Time) : Int := t.nanos / 1000000000

/-- Go `http.StatusUnauthorized`. -/
def StatusUnauthorized : Nat := 401

/-- Go `http.StatusBadRequest`. -/
def StatusBadRequest : Nat := 400

/-- Go `http.StatusOK`. -/
def StatusOK : Nat := 200

/-- Go `http.Header` (`map[string][]string`). -/
abbrev Header := String → Option (List String)

/-- Go `Header.Get`: the first value of the key, `""` when there is none. -/
def Header.Get (h : Header) (key : String) : String :=
  match h key with
  | some (v :: _) => v
  | _ => ""

/-- Go `Header.Set`. -/
def Header.Set (h : Header) (key value : String) : Header :=
  fun k => if k = key then some [value] else h k

/-- Go interface values that serve as context keys and values.  Two values
are equal when their dynamic types and their contents are equal, so a string
held in a defined type is different from the plain string. -/
inductive GoValue where
  | str (s : String)
  | int (n : Int)
  | named (typeName : String) (underlying : GoValue)
deriving DecidableEq, Repr

/-- Go `context.Context`, reduced to its chain of key-value pairs, the
innermost first. -/
abbrev Context := List (GoValue × GoValue)

/-- Go `context.Background()`. -/
def Context.Background : Context := []

/-- Go `context.WithValue`. -/
def Context.WithValue (parent : Context) (key val : GoValue) : Context :=
  (key, val) :: parent

/-- Go `Context.Value`: the value of the innermost pair with that key, `none`
for Go's `nil`. -/
def Context.Value : Context → GoValue → Option GoValue
  | [], _ => none
  | (k, v) :: parent, key => if k = key then some v else Context.Value parent key

/-- Go `*http.Request`, by the fields the handlers read; `ctx` is what
`r.Context()` returns. -/
structure Request where
  Method : String
  Path : String
  Query : Values
  Header : Header
  Body : String
  ctx : Context

/-- Go `Request.WithContext`: a copy of the request with the context replaced. -/
def Request.WithContext (r : Request) (ctx : Context) : Request :=
  { r with ctx := ctx }

/-- Go `http.ResponseWriter`, by what has been sent: the header map, the
status code once it is written, and the body written so far. -/
structure ResponseWriter where
  header : Header
  status : Option Nat
  body : String

/-- A response writer on which nothing has been written. -/
def ResponseWriter.fresh : ResponseWriter :=
  { header := fun _ => none, status := none, body := "" }

/-- Go `ResponseWriter.WriteHeader`: the first call fixes the status code. -/
def ResponseWriter.WriteHeader (w : ResponseWriter) (code : Nat) : ResponseWriter :=
  match w.status with
  | none => { w with status := some code }
  | some _ => w

/-- Go `ResponseWriter.Write`: writes status 200 first when no status was
written, then appends to the body. -/
def ResponseWriter.Write (w : ResponseWriter) (data : String) : ResponseWriter :=
  let w1 := w.WriteHeader StatusOK
  { w1 with body := w1.body ++ data }

/-- Go `http.Error`: a plain-text reply with the given status code and the
message followed by a newline. -/
def httpError (w : ResponseWriter) (error : String) (code : Nat) : ResponseWriter :=
  let h1 := w.header.Set "Content-Type" "text/plain; charset=utf-8"
  let h2 := h1.Set "X-Content-Type-Options" "nosniff"
  let w1 := { w with header := h2 }
  (w1.WriteHeader code).Write (error ++ "\n")

/-- Go `http.Handler`: a handler maps the writer and the request to the
writer after the handler has run. -/
abbrev Handler := ResponseWriter → Request → ResponseWriter

/-! ## The token library (`github.com/dgrijalva/jwt-go`) -/

/-- A value in a claim set, as `encoding/json` decodes it into an
`interface{}`.  A JSON number becomes a `float64`: `num n` is a number whose
`float64` value is the integer `n` within the `int64` range, so that Go's
`int64(value)` is `n`; `float v` is any other `float64` value, fractional or
beyond that range, held by its exact rational value.  `str` is a JSON string
and `other` any other JSON value. -/
inductive ClaimValue where
  | str (s : String)
  | num (n : Int)
  | float (v : ℚ)
  | other (json : String)
deriving DecidableEq, Repr

/-- Go `jwt.MapClaims` (`map[string]interface{}`), as a list of entries. -/
abbrev MapClaims := List (String × ClaimValue)

/-- Lookup `m[key]` in a claim set. -/
def MapClaims.get (m : MapClaims) (key : String) : Option ClaimValue :=
  match m with
  | [] => none
  | (k, v) :: rest => if k = key then some v else MapClaims.get rest key

/-- The signing methods registered by the token library, by their Go type. -/
inductive SigningMethod where
  | HMAC (alg : String)
  | RSA (alg : String)
  | RSAPSS (alg : String)
  | ECDSA (alg : String)
  | unsecured
deriving DecidableEq, Repr

/-- Go `SigningMethod.Alg`. -/
def SigningMethod.Alg : SigningMethod → String
  | .HMAC alg => alg
  | .RSA alg => alg
  | .RSAPSS alg => alg
  | .ECDSA alg => alg
  | .unsecured => "none"

/-- Go `jwt.SigningMethodHS256`. -/
def SigningMethodHS256 : SigningMethod := .HMAC "HS256"

/-- Go `jwt.GetSigningMethod`: the registered method of an `alg` name. -/
def GetSigningMethod (alg : String) : Option SigningMethod :=
  if alg = "HS256" ∨ alg = "HS384" ∨ alg = "HS512" then some (.HMAC alg)
  else if alg = "RS256" ∨ alg = "RS384" ∨ alg = "RS512" then some (.RSA alg)
  else if alg = "PS256" ∨ alg = "PS384" ∨ alg = "PS512" then some (.RSAPSS alg)
  else if alg = "ES256" ∨ alg = "ES384" ∨ alg = "ES512" then some (.ECDSA alg)
  else if alg = "none" then some .unsecured
  else none

/-- Go `jwt.Token`. -/
structure Token where
  Raw : String
  Method : SigningMethod
  Alg : String
  Claims : MapClaims
  Signature : String
  Valid : Bool
deriving DecidableEq, Repr

/-- What the decoding half of `jwt.Parse` reads off a token string: the `alg`
header when it is a string, the claim set, the text that was signed
(`parts[0] + "." + parts[1]`) and the signature segment `parts[2]`. -/
structure DecodedToken where
  alg : Option String
  claims : MapClaims
  signingInput : String
  signature : String
deriving DecidableEq, Repr

/-- The primitives of the libraries the program is linked against, taken as
parameters: the base64url and JSON coding of tokens, the keyed hash, the
signing methods other than HMAC, and the JSON encoding of the reply of
`handleVerifyToken`. -/
structure Lib where
  /-- Go `Token.SigningString`: the encoded header and claims joined by a
  dot; `none` when JSON marshalling fails. -/
  SigningString : String → MapClaims → Option String
  /-- Splitting a token string at its dots and decoding header and claims;
  `none` for a malformed token. -/
  Decode : String → Option DecodedToken
  /-- The keyed hash `mac alg key message`. -/
  Mac : String → String → String → String
  /-- Go `jwt.EncodeSegment`. -/
  EncodeSegment : String → String
  /-- Go `jwt.DecodeSegment`. -/
  DecodeSegment : String → Option String
  /-- Go `SigningMethod.Sign` of the methods other than HMAC. -/
  SignOther : SigningMethod → String → String → Option String
  /-- Go `SigningMethod.Verify` of the methods other than HMAC. -/
  VerifyOther : SigningMethod → String → String → String → Bool
  /-- The JSON text of the map with `valid: true` and the given claims. -/
  EncodeVerified : MapClaims → String
  /-- Go's conversion `int64(f)` of a `float64` whose integer part is outside
  the `int64` range; the language leaves the result to the implementation. -/
  Int64OutOfRange : ℚ → Int

/-- Go `SigningMethod.Sign(signingString, key)` with a byte-slice key. -/
def SigningMethod.Sign (lib : Lib) (m : SigningMethod) (signingString key : String) :
    Option String :=
  match m with
  | .HMAC alg => some (lib.EncodeSegment (lib.Mac alg key signingString))
  | other => lib.SignOther other signingString key

/-- Go `SigningMethod.Verify(signingString, signature, key)` with a
byte-slice key: `true` when no error is returned.  The HMAC methods decode
the signature segment and compare it with the recomputed keyed hash. -/
def SigningMethod.Verify (lib : Lib) (m : SigningMethod)
    (signingString signature key : String) : Bool :=
  match m with
  | .HMAC alg =>
    match lib.DecodeSegment signature with
    | some sig => sig == lib.Mac alg key signingString
    | none => false
  | other => lib.VerifyOther other signingString signature key

/-- The integer part of a rational, rounded toward zero. -/
def truncate (v : ℚ) : Int :=
  if 0 ≤ v then ⌊v⌋ else ⌈v⌉

/-- Go's conversion `int64(f)` of a `float64`: the fraction is discarded,
and a value beyond the `int64` range gives an implementation-dependent
result. -/
def float64ToInt64 (lib : Lib) (v : ℚ) : Int :=
  if -9223372036854775808 ≤ truncate v ∧ truncate v ≤ 9223372036854775807 then
    truncate v
  else
    lib.Int64OutOfRange v

/-- Go `verifyExp(exp, now, false)` of jwt-go: a zero `exp` counts as unset
and passes, otherwise `now <= exp`. -/
def verifyExp (exp now : Int) : Bool :=
  if exp = 0 then true else decide (now ≤ exp)

/-- Go `verifyIat(iat, now, false)` of jwt-go. -/
def verifyIat (iat now : Int) : Bool :=
  if iat = 0 then true else decide (iat ≤ now)

/-- Go `verifyNbf(nbf, now, false)` of jwt-go. -/
def verifyNbf (nbf now : Int) : Bool :=
  if nbf = 0 then true else decide (nbf ≤ now)

/-- Go `MapClaims.VerifyExpiresAt(now, false)`: when `exp` is a `float64` it
is converted with `int64(exp)` and handed to `verifyExp`; an absent `exp` or
one of another type passes. -/
def VerifyExpiresAt (lib : Lib) (m : MapClaims) (now : Int) : Bool :=
  match m.get "exp" with
  | some (.num exp) => verifyExp exp now
  | some (.float exp) => verifyExp (float64ToInt64 lib exp) now
  | _ => true

/-- Go `MapClaims.VerifyIssuedAt(now, false)`. -/
def VerifyIssuedAt (lib : Lib) (m : MapClaims) (now : Int) : Bool :=
  match m.get "iat" with
  | some (.num iat) => verifyIat iat now
  | some (.float iat) => verifyIat (float64ToInt64 lib iat) now
  | _ => true

/-- Go `MapClaims.VerifyNotBefore(now, false)`. -/
def VerifyNotBefore (lib : Lib) (m : MapClaims) (now : Int) : Bool :=
  match m.get "nbf" with
  | some (.num nbf) => verifyNbf nbf now
  | some (.float nbf) => verifyNbf (float64ToInt64 lib nbf) now
  | _ => true

/-- Go `MapClaims.Valid`: `true` when no error is returned. -/
def MapClaims.Valid (lib : Lib) (m : MapClaims) (now : Int) : Bool :=
  VerifyExpiresAt lib m now && VerifyIssuedAt lib m now && VerifyNotBefore lib m now

/-- The errors of `jwt.Parse`. -/
inductive ParseError where
  | malformed
  | unspecifiedMethod
  | unavailableMethod
  | unverifiable (inner : String)
  | invalid (claimsInvalid signatureInvalid : Bool)
deriving DecidableEq, Repr

/-- Go `jwt.Parse(tokenString, keyFunc)` at clock reading `now`: decode,
look the signing method up, ask `keyFunc` for the key, validate the claims,
verify the signature, and mark the token valid when nothing failed. -/
def jwtParse (lib : Lib) (now : Time) (tokenString : String)
    (keyFunc : Token → Except String String) : Except ParseError Token :=
  match lib.Decode tokenString with
  | none => .error .malformed
  | some d =>
    match d.alg with
    | none => .error .unspecifiedMethod
    | some alg =>
      match GetSigningMethod alg with
      | none => .error .unavailableMethod
      | some method =>
        let token : Token :=
          { Raw := tokenString, Method := method, Alg := alg, Claims := d.claims,
            Signature := "", Valid := false }
        match keyFunc token with
        | .error e => .error (.unverifiable e)
        | .ok key =>
          let claimsOk := d.claims.Valid lib now.Unix
          let sigOk := method.Verify lib d.signingInput d.signature key
          if claimsOk && sigOk then
            .ok { token with Signature := d.signature, Valid := true }
          else
            .error (.invalid (!claimsOk) (!sigOk))

/-- Go `jwt.NewWithClaims`. -/
def NewWithClaims (method : SigningMethod) (claims : MapClaims) : Token :=
  { Raw := "", Method := method, Alg := method.Alg, Claims := claims,
    Signature := "", Valid := false }

/-- Go `Token.SignedString(key)`: the signing string, a dot, the signature;
`none` when an error is returned. -/
def Token.SignedString (lib : Lib) (t : Token) (key : String) : Option String := do
  let sstr ← lib.SigningString t.Alg t.Claims
  let sig ← t.Method.Sign lib sstr key
  pure (Join [sstr, sig] ".")

/-! ## The token service and the auth gate of `main.go` -/

/-- The claim set built by `createToken` (lines 321-325) at clock reading
`now`. -/
def createClaims (now : Time) (userID : Int) (email : String) : MapClaims :=
  [ ("user_id", .str (Itoa userID)),
    ("email", .str email),
    ("exp", .num (now.Add (24 * Hour)).Unix) ]

/-- The function `createToken` (lines 320-329); `none` is the error return. -/
def createToken (lib : Lib) (now : Time) (userID : Int) (email : String) :
    Option String :=
  let claims := createClaims now userID email
  let token := NewWithClaims SigningMethodHS256 claims
  token.SignedString lib "secret"

/-- The key-lookup callback that `authMiddleware` hands to `jwt.Parse`
(lines 252-257). -/
def authKeyFunc (token : Token) : Except String String :=
  match token.Method with
  | .HMAC _ => .ok "secret"
  | _ => .error "unexpected signing method"

/-- The key-lookup callback that `handleVerifyToken` hands to `jwt.Parse`
(lines 359-364). -/
def verifyKeyFunc (token : Token) : Except String String :=
  match token.Method with
  | .HMAC _ => .ok "secret"
  | _ => .error "unexpected signing method"

/-- The function `authMiddleware` (lines 242-284) at clock reading `now`.
`jwt.Parse` fills `token.Claims` with a `jwt.MapClaims`, so the type
assertion of line 269 succeeds. -/
def authMiddleware (lib : Lib) (now : Time) (next : Handler) : Handler :=
  fun w r =>
    let tokenString := r.Header.Get "Authorization"
    if tokenString = "" then
      w.WriteHeader StatusUnauthorized
    else
      let tokenString := ReplaceFirst tokenString "Bearer " ""
      match jwtParse lib now tokenString authKeyFunc with
      | .error _ => w.WriteHeader StatusUnauthorized
      | .ok token =>
        if !token.Valid then
          w.WriteHeader StatusUnauthorized
        else
          match token.Claims.get "user_id" with
          | some (.str userID) =>
            let ctx := r.ctx.WithValue (.str "user_id") (.str userID)
            next w (r.WithContext ctx)
          | _ => w.WriteHeader StatusUnauthorized

/-- The function `getUserIDFromContext` (lines 331-337). -/
def getUserIDFromContext (ctx : Context) : Except String String :=
  match ctx.Value (.str "user_id") with
  | some (.str userID) => .ok userID
  | _ => .error "user ID not found in context"

/-- The function `handleVerifyToken` (lines 338-390) at clock reading `now`. -/
def handleVerifyToken (lib : Lib) (now : Time) : Handler :=
  fun w r =>
    let authHeader := r.Header.Get "Authorization"
    if authHeader = "" then
      httpError w "Authorization header is required" StatusBadRequest
    else
      let tokenString := TrimPrefix authHeader "Bearer "
      if tokenString = "" then
        httpError w "Token is required" StatusBadRequest
      else
        match jwtParse lib now tokenString verifyKeyFunc with
        | .error _ => httpError w "Invalid token" StatusUnauthorized
        | .ok token =>
          if !token.Valid then
            httpError w "Invalid token" StatusUnauthorized
          else
            let w1 := { w with header := w.header.Set "Content-Type" "application/json" }
            w1.Write (lib.EncodeVerified token.Claims)

/-! ## A small concrete instance of the library parameters

The instance below is a complete, executable token codec with a simple
checksum in place of the keyed hash.  It serves to evaluate the handlers on
concrete requests. -/

/-- The part before and the part after the first `sep`. -/
def splitAtFirst (sep : Char) : List Char → Option (List Char × List Char)
  | [] => none
  | c :: cs =>
    if c = sep then some ([], cs)
    else (splitAtFirst sep cs).map (fun ab => (c :: ab.1, ab.2))

/-- The part before and the part after the last `sep`. -/
def splitAtLast (sep : Char) (s : List Char) : Option (List Char × List Char) :=
  (splitAtFirst sep s.reverse).map (fun ab => (ab.2.reverse, ab.1.reverse))

/-- The fields between the occurrences of `sep`. -/
def splitAll (sep : Char) : List Char → List (List Char)
  | [] => [[]]
  | c :: cs =>
    if c = sep then [] :: splitAll sep cs
    else
      match splitAll sep cs with
      | [] => [[c]]
      | f :: fs => (c :: f) :: fs

/-- Decimal digits to a number, `none` on any other character. -/
def parseDigits : List Char → Nat → Option Nat
  | [], acc => some acc
  | c :: cs, acc =>
    if c.isDigit then parseDigits cs (acc * 10 + (c.toNat - 48)) else none

/-- A decimal integer with an optional minus sign. -/
def parseInt : List Char → Option Int
  | [] => none
  | '-' :: ds => if ds = [] then none else (parseDigits ds 0).map (fun n => -(n : Int))
  | ds => (parseDigits ds 0).map (fun n => (n : Int))

/-- A claim value as text: a tag character and the content. -/
def encodeClaimValue : ClaimValue → String
  | .str s => "S" ++ s
  | .num n => "N" ++ Itoa n
  | .float v => "F" ++ Itoa v.num ++ "/" ++ Nat.repr v.den
  | .other j => "J" ++ j

/-- A number of the concrete codec as a claim value: `num` for an integer in
the `int64` range, `float` for any other value. -/
def numberClaim (v : ℚ) : ClaimValue :=
  if v.den = 1 ∧ -9223372036854775808 ≤ v.num ∧ v.num ≤ 9223372036854775807 then
    .num v.num
  else
    .float v

/-- A fraction `numerator/denominator` in decimal digits. -/
def parseFraction (cs : List Char) : Option ℚ :=
  match splitAtFirst '/' cs with
  | none => none
  | some (n, d) =>
    match parseInt n, parseDigits d 0 with
    | some num, some den => if den = 0 ∨ d = [] then none else some (mkRat num den)
    | _, _ => none

/-- Inverse of `encodeClaimValue`. -/
def decodeClaimValue : List Char → Option ClaimValue
  | 'S' :: r => some (.str ⟨r⟩)
  | 'N' :: r => (parseInt r).map (fun n => numberClaim (n : ℚ))
  | 'F' :: r => (parseFraction r).map numberClaim
  | 'J' :: r => some (.other ⟨r⟩)
  | _ => none

/-- A claim set as text: `key=value` entries joined by semicolons. -/
def encodeClaims (claims : MapClaims) : String :=
  Join (claims.map (fun kv => kv.1 ++ "=" ++ encodeClaimValue kv.2)) ";"

/-- Inverse of `encodeClaims`. -/
def decodeClaims (cs : List Char) : Option MapClaims :=
  if cs = [] then some []
  else
    (splitAll ';' cs).mapM (fun f =>
      match splitAtFirst '=' f with
      | none => none
      | some (k, v) => (decodeClaimValue v).map (fun cv => (⟨k⟩, cv)))

/-- A polynomial checksum of a text. -/
def checksum (s : String) : Nat :=
  s.data.foldl (fun h c => (h * 31 + c.toNat) % 1000003) 7

/-- The checksum of algorithm name, key and message, in decimal. -/
def toyMac (alg key msg : String) : String :=
  Nat.repr (checksum (alg ++ "/" ++ key ++ "/" ++ msg))

/-- Decoding of `header.claims.signature`: the header ends at the first dot
and the signature starts after the last one. -/
def toyDecode (s : String) : Option DecodedToken :=
  match splitAtFirst '.' s.data with
  | none => none
  | some (hdr, rest) =>
    match splitAtLast '.' rest with
    | none => none
    | some (cl, sig) =>
      (decodeClaims cl).map (fun claims =>
        { alg := some ⟨hdr⟩, claims := claims,
          signingInput := ⟨hdr ++ '.' :: cl⟩, signature := ⟨sig⟩ })

/-- The concrete library instance. -/
def toyLib : Lib :=
  { SigningString := fun alg claims => some (alg ++ "." ++ encodeClaims claims)
    Decode := toyDecode
    Mac := toyMac
    EncodeSegment := fun s => s
    DecodeSegment := fun s => some s
    SignOther := fun _ _ _ => none
    VerifyOther := fun _ _ _ _ => false
    EncodeVerified := fun claims => "valid=true;" ++ encodeClaims claims
    Int64OutOfRange := fun _ => -9223372036854775808 }

/-- A request with only an `Authorization` header. -/
def requestWithAuth (value : String) : Request :=
  { Method := "GET", Path := "/api/go/earthquakes", Query := fun _ => none,
    Header := fun k => if k = "Authorization" then some [value] else none,
    Body := "", ctx := Context.Background }

/-- A request without any header. -/
def requestWithoutAuth : Request :=
  { Method := "GET", Path := "/api/go/earthquakes", Query := fun _ => none,
    Header := fun _ => none, Body := "", ctx := Context.Background }

/-- A downstream handler that replies with the subject it finds in the
request context. -/
def echoSubject : Handler := fun w r =>
  match getUserIDFromContext r.ctx with
  | .ok userID => w.Write ("subject=" ++ userID)
  | .error e => httpError w e StatusUnauthorized

/-! ## Specification vocabulary for the auth gate -/

/-- A token string passes the verification of `authMiddleware`: `jwt.Parse`
returns no error and the token is marked valid. -/
def Verifies (lib : Lib) (now : Time) (tokenString : String) : Prop :=
  ∃ tok, jwtParse lib now tokenString authKeyFunc = .ok tok ∧ tok.Valid = true

/-- The header value starts with `"Bearer "`. -/
def hasBearerPrefix (value : String) : Bool :=
  "Bearer ".data.isPrefixOf value.data

/-- The gate forwards request `r` as `r2`: whatever the next handler and the
writer are, the gate's result is the next handler run on `r2`. -/
def Forwards (lib : Lib) (now : Time) (r r2 : Request) : Prop :=
  ∀ (next : Handler) (w : ResponseWriter), authMiddleware lib now next w r = next w r2

/-- The gate accepts request `r`: the header is not empty, the token string
verifies and its claims carry a string `user_id`. -/
def Accepted (lib : Lib) (now : Time) (r : Request) : Prop :=
  r.Header.Get "Authorization" ≠ "" ∧
  ∃ tok uid,
    jwtParse lib now (ReplaceFirst (r.Header.Get "Authorization") "Bearer " "")
      authKeyFunc = .ok tok ∧
    tok.Valid = true ∧ tok.Claims.get "user_id" = some (.str uid)

/-- A context to which code other than the gate added a value under the
plain string key `"user_id"`. -/
def strayContext : Context :=
  Context.Background.WithValue (.str "user_id") (.str "intruder")

/-- The token that `toyLib` issues for user 7 at time zero. -/
def sampleToken : String :=
  "HS256.user_id=S7;email=Sada@example.com;exp=N86400.934460"

/-- The token `sampleToken` with another signature. -/
def forgedToken : String :=
  "HS256.user_id=S7;email=Sada@example.com;exp=N86400.000000"

/-- A request that carries `sampleToken` behind the bearer prefix. -/
def sampleRequest : Request := requestWithAuth ("Bearer " ++ sampleToken)

/-- The request `sampleRequest` with subject `7` added to its context. -/
def sampleForwarded : Request :=
  sampleRequest.WithContext (sampleRequest.ctx.WithValue (.str "user_id") (.str "7"))

/-- The `alg` name belongs to the HMAC family of the token library. -/
def isHMACFamily (alg : String) : Bool :=
  decide (alg = "HS256" ∨ alg = "HS384" ∨ alg = "HS512")

/-- The list `old` occurs somewhere in the list of characters. -/
def occursIn (old : List Char) : List Char → Bool
  | [] => old.isPrefixOf []
  | c :: cs => old.isPrefixOf (c :: cs) || occursIn old cs

/-- Go `strings.Contains(s, substr)`. -/
def Contains (s substr : String) : Bool :=
  occursIn substr.data s.data

/-- Both callers of `jwt.Parse` answer unauthorized for a token string:
`authMiddleware` whenever it is the string it extracts from the header, and
`handleVerifyToken` whenever it is the non-empty string it extracts from a
non-empty header. -/
def BothCallersReject (lib : Lib) (now : Time) (tokenString : String) : Prop :=
  (∀ (next : Handler) (w : ResponseWriter) (r : Request),
    ReplaceFirst (r.Header.Get "Authorization") "Bearer " "" = tokenString →
    authMiddleware lib now next w r = w.WriteHeader StatusUnauthorized) ∧
  (∀ (w : ResponseWriter) (r : Request),
    r.Header.Get "Authorization" ≠ "" →
    TrimPrefix (r.Header.Get "Authorization") "Bearer " = tokenString →
    tokenString ≠ "" →
    handleVerifyToken lib now w r = httpError w "Invalid token" StatusUnauthorized ∧
    (handleVerifyToken lib now ResponseWriter.fresh r).status = some 401)

/-- The signing string of `sampleToken`. -/
def sampleSigningString : String :=
  "HS256.user_id=S7;email=Sada@example.com;exp=N86400"

/-- The claims of `sampleToken` signed with the key `"other"`. -/
def otherKeyToken : String :=
  Join [sampleSigningString, toyLib.EncodeSegment (toyLib.Mac "HS256" "other" sampleSigningString)] "."

/-- A token whose header names the algorithm `RS256`. -/
def rsaToken : String :=
  "RS256.user_id=S7;email=Sada@example.com;exp=N86400.934460"

/-- A token whose header names the algorithm `none`, without signature. -/
def unsecuredToken : String :=
  "none.user_id=S7;email=Sada@example.com;exp=N86400."

/-- The header value `sampleToken` with `"Bearer "` inserted in front of its
signature segment. -/
def misplacedBearerHeader : String :=
  "HS256.user_id=S7;email=Sada@example.com;exp=N86400.Bearer 934460"

/-! ## The store, the JSON codec and the user and preference handlers -/

/-- Go `http.StatusNotFound`. -/
def StatusNotFound : Nat := 404

/-- Go `http.StatusInternalServerError`. -/
def StatusInternalServerError : Nat := 500

/-- Go `http.StatusNoContent`. -/
def StatusNoContent : Nat := 204

/-- The struct `User` of `main.go`. -/
structure User where
  Id : Int
  Name : String
  Email : String
  Password : String
deriving DecidableEq, Repr

/-- The struct `Preference` of `main.go`.  The handlers only pass the range
values on, so each `float64` or `time.Time` field is carried as its literal
text. -/
structure Preference where
  Id : Int
  UserId : Int
  DepthMin : String
  DepthMax : String
  TimeStart : String
  TimeEnd : String
  MagnitudeMin : String
  MagnitudeMax : String
  LongitudeMin : String
  LongitudeMax : String
  LatitudeMin : String
  LatitudeMax : String
deriving DecidableEq, Repr

/-- A value passed to or returned by `database/sql`. -/
inductive SqlValue where
  | text (s : String)
  | int (n : Int)
  | bytes (b : String)
  | num (literal : String)
deriving DecidableEq, Repr

/-- A Go `error` returned by the store: `sql.ErrNoRows` or any other error. -/
inductive DbError where
  | ErrNoRows
  | other (msg : String)
deriving DecidableEq, Repr

/-- A statement handed to the store: its text and its arguments. -/
structure Statement where
  sql : String
  args : List SqlValue
deriving DecidableEq, Repr

/-- The relational store behind `*sql.DB`, with states of type `σ`:
`Exec` runs a statement, `QueryRow` runs a statement and yields the first
row of its result. -/
structure Store (σ : Type) where
  Exec : σ → String → List SqlValue → Except DbError Unit × σ
  QueryRow : σ → String → List SqlValue → Except DbError (List SqlValue) × σ

/-- The store state during a request together with the statements issued so
far. -/
structure Session (σ : Type) where
  db : σ
  issued : List Statement

/-- Go `db.Exec(sql, args...)`, recording the statement. -/
def Store.exec {σ : Type} (store : Store σ) (s : Session σ) (sql : String)
    (args : List SqlValue) : Except DbError Unit × Session σ :=
  let res := store.Exec s.db sql args
  (res.1, { db := res.2, issued := s.issued ++ [⟨sql, args⟩] })

/-- Go `db.QueryRow(sql, args...)`, recording the statement. -/
def Store.queryRow {σ : Type} (store : Store σ) (s : Session σ) (sql : String)
    (args : List SqlValue) : Except DbError (List SqlValue) × Session σ :=
  let res := store.QueryRow s.db sql args
  (res.1, { db := res.2, issued := s.issued ++ [⟨sql, args⟩] })

/-- Go `Row.Scan(&id)` into one `int`. -/
def scanId : List SqlValue → Except DbError Int
  | [.int n] => .ok n
  | _ => .error (.other "sql: Scan error")

/-- Go `Row.Scan(&u.Id, &u.Name, &u.Email)`. -/
def scanUser3 : List SqlValue → Except DbError User
  | [.int id, .text name, .text email] =>
    .ok { Id := id, Name := name, Email := email, Password := "" }
  | _ => .error (.other "sql: Scan error")

/-- Go `Row.Scan(&user.Id, &user.Name, &user.Email, &user.Password)`. -/
def scanUser4 : List SqlValue → Except DbError User
  | [.int id, .text name, .text email, .text password] =>
    .ok { Id := id, Name := name, Email := email, Password := password }
  | _ => .error (.other "sql: Scan error")

/-- The library functions around the handlers, taken as parameters: JSON
decoding into a struct (the struct after decoding and the error, if any),
JSON encoding as written by `json.NewEncoder(w).Encode`, `bcrypt`,
`io.ReadAll` on the request body and the path variables of `mux.Vars`. -/
structure Codec where
  DecodeUser : String → User × Option String
  DecodePreference : String → Preference × Option String
  EncodeUser : User → String
  EncodePreference : Preference → String
  EncodeString : String → String
  EncodeToken : String → String
  GenerateFromPassword : String → Except String String
  ReadAll : String → Except String String
  Vars : Request → String → String

/-- What a handler leaves behind: the response writer, the store state, the
statements issued, and whether the process was terminated by `log.Fatal`. -/
structure Outcome (σ : Type) where
  w : ResponseWriter
  db : σ
  issued : List Statement
  exited : Bool

/-- The handler returned normally with writer `w`. -/
def Outcome.reply {σ : Type} (s : Session σ) (w : ResponseWriter) : Outcome σ :=
  { w := w, db := s.db, issued := s.issued, exited := false }

/-- Go `log.Fatal`: the process exits before anything else is written. -/
def Outcome.fatal {σ : Type} (s : Session σ) (w : ResponseWriter) : Outcome σ :=
  { w := w, db := s.db, issued := s.issued, exited := true }

/-- A handler that works on the store. -/
abbrev StoreHandler (σ : Type) := Session σ → ResponseWriter → Request → Outcome σ

/-- The function `createUserPrivate` (lines 627-645): the error it returns,
if any, and the session afterwards. -/
def createUserPrivate {σ : Type} (codec : Codec) (store : Store σ) (s : Session σ)
    (user : User) : Option DbError × Session σ :=
  match codec.GenerateFromPassword user.Password with
  | .error e => (some (.other e), s)
  | .ok hashedPassword =>
    let res := store.queryRow s
      "INSERT INTO users (name, email, password) VALUES ($1, $2, $3) RETURNING id"
      [.text user.Name, .text user.Email, .bytes hashedPassword]
    match res.1 >>= scanId with
    | .error err => (some err, res.2)
    | .ok _ => (none, res.2)

/-- The function `getUserByEmail` (lines 310-318). -/
def getUserByEmail {σ : Type} (store : Store σ) (s : Session σ) (email : String) :
    Except DbError User × Session σ :=
  let res := store.queryRow s
    "SELECT id, name, email, password FROM users WHERE email = $1" [.text email]
  (res.1 >>= scanUser4, res.2)

/-- The function `handleSignUp` (lines 392-435) at clock reading `now`. -/
def handleSignUp {σ : Type} (lib : Lib) (now : Time) (codec : Codec) (store : Store σ) :
    StoreHandler σ :=
  fun s w r =>
    match codec.DecodeUser r.Body with
    | (_, some _) => Outcome.reply s (httpError w "Invalid request" StatusBadRequest)
    | (loginReq, none) =>
      let s1 := (createUserPrivate codec store s loginReq).2
      let found := getUserByEmail store s1 loginReq.Email
      match found.1 with
      | .error .ErrNoRows =>
        Outcome.reply found.2 (httpError w "Invalid email or password" StatusUnauthorized)
      | .error (.other _) =>
        Outcome.reply found.2 (httpError w "Server error" StatusInternalServerError)
      | .ok user =>
        match createToken lib now user.Id user.Email with
        | none =>
          Outcome.reply found.2 (httpError w "Server error" StatusInternalServerError)
        | some token =>
          let w1 := { w with header := w.header.Set "Content-Type" "application/json" }
          Outcome.reply found.2 (w1.Write (codec.EncodeToken token))

/-- The function `createUser` (lines 648-687). -/
def createUser {σ : Type} (codec : Codec) (store : Store σ) : StoreHandler σ :=
  fun s w r =>
    match codec.DecodeUser r.Body with
    | (_, some _) => Outcome.reply s (httpError w "Invalid request body" StatusBadRequest)
    | (user, none) =>
      if user.Name = "" ∨ user.Email = "" ∨ user.Password = "" then
        Outcome.reply s
          (httpError w "Missing required fields: name, email, or password" StatusBadRequest)
      else
        match codec.GenerateFromPassword user.Password with
        | .error _ =>
          Outcome.reply s (httpError w "Failed to hash password" StatusInternalServerError)
        | .ok hashedPassword =>
          let res := store.queryRow s
            "INSERT INTO users (name, email, password) VALUES ($1, $2, $3) RETURNING id"
            [.text user.Name, .text user.Email, .bytes hashedPassword]
          match res.1 >>= scanId with
          | .error _ =>
            Outcome.reply res.2
              (httpError w "Failed to create user" StatusInternalServerError)
          | .ok id =>
            let created := { user with Id := id, Password := "" }
            let w1 := { w with header := w.header.Set "Content-Type" "application/json" }
            Outcome.reply res.2 (w1.Write (codec.EncodeUser created))

/-- The function `updateUser` (lines 690-714).  The decoding error of line
693 is not looked at. -/
def updateUser {σ : Type} (codec : Codec) (store : Store σ) : StoreHandler σ :=
  fun s w r =>
    let u := (codec.DecodeUser r.Body).1
    let id := codec.Vars r "id"
    let res := store.exec s "UPDATE users SET name = $1, email = $2 WHERE id = $3"
      [.text u.Name, .text u.Email, .text id]
    match res.1 with
    | .error _ => Outcome.fatal res.2 w
    | .ok _ =>
      let row := store.queryRow res.2 "SELECT id, name, email FROM users WHERE id = $1"
        [.text id]
      match row.1 >>= scanUser3 with
      | .error _ => Outcome.fatal row.2 w
      | .ok updatedUser => Outcome.reply row.2 (w.Write (codec.EncodeUser updatedUser))

/-- The function `deleteUser` (lines 717-738). -/
def deleteUser {σ : Type} (codec : Codec) (store : Store σ) : StoreHandler σ :=
  fun s w r =>
    let id := codec.Vars r "id"
    let row := store.queryRow s "SELECT * FROM users WHERE id = $1" [.text id]
    match row.1 >>= scanUser3 with
    | .error _ => Outcome.reply row.2 (w.WriteHeader StatusNotFound)
    | .ok _ =>
      let res := store.exec row.2 "DELETE FROM users WHERE id = $1" [.text id]
      match res.1 with
      | .error _ => Outcome.reply res.2 (w.WriteHeader StatusNotFound)
      | .ok _ => Outcome.reply res.2 (w.Write (codec.EncodeString "User deleted"))

/-- The arguments that carry the ten range values of a preference, in the
order of lines 770 and 862-863. -/
def Preference.rangeArgs (p : Preference) : List SqlValue :=
  [.num p.DepthMin, .num p.DepthMax, .num p.TimeStart, .num p.TimeEnd,
   .num p.MagnitudeMin, .num p.MagnitudeMax, .num p.LongitudeMin, .num p.LongitudeMax,
   .num p.LatitudeMin, .num p.LatitudeMax]

/-- The function `createPreference` (lines 740-778). -/
def createPreference {σ : Type} (codec : Codec) (store : Store σ) : StoreHandler σ :=
  fun s w r =>
    match getUserIDFromContext r.ctx with
    | .error _ => Outcome.reply s (httpError w "Unauthorized" StatusUnauthorized)
    | .ok userID =>
      match codec.ReadAll r.Body with
      | .error _ =>
        Outcome.reply s (httpError w "Failed to read request body" StatusBadRequest)
      | .ok body =>
        match codec.DecodePreference body with
        | (_, some err) =>
          Outcome.reply s (httpError w ("Invalid JSON: " ++ err) StatusBadRequest)
        | (p, none) =>
          let res := store.queryRow s
            "\n        INSERT INTO preferences (user_id, depth_min, depth_max, time_start, time_end, magnitude_min, magnitude_max, longitude_min, longitude_max, latitude_min, latitude_max)\n        VALUES ($1, $2, $3, $4, $5, $6, $7, $8, $9, $10, $11) RETURNING id"
            (.text userID :: p.rangeArgs)
          match res.1 >>= scanId with
          | .error _ => Outcome.fatal res.2 w
          | .ok id => Outcome.reply res.2 (w.Write (codec.EncodePreference { p with Id := id }))

/-- The function `updatePreference` (lines 837-875). -/
def updatePreference {σ : Type} (codec : Codec) (store : Store σ) : StoreHandler σ :=
  fun s w r =>
    match getUserIDFromContext r.ctx with
    | .error _ => Outcome.reply s (httpError w "Unauthorized" StatusUnauthorized)
    | .ok userID =>
      let id := codec.Vars r "id"
      match codec.DecodePreference r.Body with
      | (_, some err) => Outcome.reply s (httpError w err StatusBadRequest)
      | (p, none) =>
        let res := store.exec s
          "\n            UPDATE preferences \n            SET depth_min = $1, depth_max = $2, time_start = $3, time_end = $4, magnitude_min = $5, magnitude_max = $6, \n                longitude_min = $7, longitude_max = $8, latitude_min = $9, latitude_max = $10 \n            WHERE id = $11 AND user_id = $12"
          (p.rangeArgs ++ [.text id, .text userID])
        match res.1 with
        | .error _ =>
          Outcome.reply res.2
            (httpError w "Failed to update preference" StatusInternalServerError)
        | .ok _ => Outcome.reply res.2 (w.WriteHeader StatusNoContent)

/-- The function `deletePreference` (lines 877-901). -/
def deletePreference {σ : Type} (codec : Codec) (store : Store σ) : StoreHandler σ :=
  fun s w r =>
    match getUserIDFromContext r.ctx with
    | .error _ => Outcome.reply s (httpError w "Unauthorized" StatusUnauthorized)
    | .ok userID =>
      let id := codec.Vars r "id"
      let res := store.exec s "DELETE FROM preferences WHERE id = $1 AND user_id = $2"
        [.text id, .text userID]
      match res.1 with
      | .error _ =>
        Outcome.reply res.2
          (httpError w "Failed to delete preference" StatusInternalServerError)
      | .ok _ => Outcome.reply res.2 (w.WriteHeader StatusNoContent)

/-! ## A small concrete store and codec -/

/-- A user body of the concrete codec: the three fields name, email and
password separated by semicolons; anything else is malformed. -/
def toyDecodeUser (body : String) : User × Option String :=
  match splitAll ';' body.data with
  | [n, e, p] => ({ Id := 0, Name := ⟨n⟩, Email := ⟨e⟩, Password := ⟨p⟩ }, none)
  | _ => ({ Id := 0, Name := "", Email := "", Password := "" }, some "invalid character")

/-- A preference body of the concrete codec: the ten range values separated
by semicolons; anything else is malformed. -/
def toyDecodePreference (body : String) : Preference × Option String :=
  match splitAll ';' body.data with
  | [a, b, c, d, e, f, g, h, i, j] =>
    ({ Id := 0, UserId := 0, DepthMin := ⟨a⟩, DepthMax := ⟨b⟩, TimeStart := ⟨c⟩,
       TimeEnd := ⟨d⟩, MagnitudeMin := ⟨e⟩, MagnitudeMax := ⟨f⟩, LongitudeMin := ⟨g⟩,
       LongitudeMax := ⟨h⟩, LatitudeMin := ⟨i⟩, LatitudeMax := ⟨j⟩ }, none)
  | _ =>
    ({ Id := 0, UserId := 0, DepthMin := "", DepthMax := "", TimeStart := "",
       TimeEnd := "", MagnitudeMin := "", MagnitudeMax := "", LongitudeMin := "",
       LongitudeMax := "", LatitudeMin := "", LatitudeMax := "" },
      some "invalid character")

/-- The concrete codec. -/
def toyCodec : Codec :=
  { DecodeUser := toyDecodeUser
    DecodePreference := toyDecodePreference
    EncodeUser := fun u => Itoa u.Id ++ ";" ++ u.Name ++ ";" ++ u.Email ++ ";" ++ u.Password
    EncodePreference := fun p => Itoa p.Id ++ ";" ++ p.DepthMin ++ ";" ++ p.DepthMax
    EncodeString := fun t => t
    EncodeToken := fun t => "token=" ++ t
    GenerateFromPassword := fun pw => .ok ("bcrypt:" ++ pw)
    ReadAll := fun body => .ok body
    Vars := fun r _ =>
      match splitAtLast '/' r.Path.data with
      | some (_, v) => ⟨v⟩
      | none => "" }

/-- A store that keeps the `users` table as a list and understands the two
statements of the signup path. -/
def toyStore : Store (List User) :=
  { Exec := fun users _ _ => (.error (.other "unsupported statement"), users)
    QueryRow := fun users sql args =>
      if sql = "INSERT INTO users (name, email, password) VALUES ($1, $2, $3) RETURNING id" then
        match args with
        | [.text n, .text e, .bytes h] =>
          (.ok [.int (users.length + 1)],
            users ++ [{ Id := users.length + 1, Name := n, Email := e, Password := h }])
        | _ => (.error (.other "bad arguments"), users)
      else if sql = "SELECT id, name, email, password FROM users WHERE email = $1" then
        match args with
        | [.text e] =>
          match users.find? (fun u => u.Email = e) with
          | some u => (.ok [.int u.Id, .text u.Name, .text u.Email, .text u.Password], users)
          | none => (.error .ErrNoRows, users)
        | _ => (.error (.other "bad arguments"), users)
      else (.error (.other "unsupported statement"), users) }

/-- A store whose every statement fails, as when the connection is down. -/
def failingStore : Store Unit :=
  { Exec := fun _ _ _ => (.error (.other "connection refused"), ())
    QueryRow := fun _ _ _ => (.error (.other "connection refused"), ()) }

/-- The session at the start of a request on an empty `users` table. -/
def emptySession : Session (List User) := { db := [], issued := [] }

/-- The session at the start of a request on the failing store. -/
def downSession : Session Unit := { db := (), issued := [] }

/-- A request with a method, a path, a body and a context. -/
def requestWithBody (method path body : String) (ctx : Context) : Request :=
  { Method := method, Path := path, Query := fun _ => none, Header := fun _ => none,
    Body := body, ctx := ctx }

/-- The signup request whose name, email and password are all empty. -/
def emptySignUp : Request :=
  requestWithBody "POST" "/sign-up" ";;" Context.Background

/-- The same body sent to the user-creation route. -/
def emptyCreateUser : Request :=
  requestWithBody "POST" "/api/go/users" ";;" Context.Background

/-- A complete user body sent to the user-creation route. -/
def fullCreateUser : Request :=
  requestWithBody "POST" "/api/go/users" "Ada;ada@example.com;pw" Context.Background

/-- An update of user 1. -/
def updateUserRequest : Request :=
  requestWithBody "PUT" "/api/go/users/1" "Ada;ada@example.com;pw" Context.Background

/-- A deletion of user 1. -/
def deleteUserRequest : Request :=
  requestWithBody "DELETE" "/api/go/users/1" "" Context.Background

/-- The context that the gate builds for subject `7`. -/
def subjectContext : Context :=
  Context.Background.WithValue (.str "user_id") (.str "7")

/-- A preference creation by subject `7`. -/
def createPreferenceRequest : Request :=
  requestWithBody "POST" "/api/go/preferences" "0;10;a;b;1;9;-180;180;-90;90" subjectContext

/-- A preference update by subject `7`. -/
def updatePreferenceRequest : Request :=
  requestWithBody "PUT" "/api/go/preferences/3" "0;10;a;b;1;9;-180;180;-90;90" subjectContext

/-- A preference deletion by subject `7`. -/
def deletePreferenceRequest : Request :=
  requestWithBody "DELETE" "/api/go/preferences/3" "" subjectContext

/-- A token signed with `"secret"` whose claims have no `user_id`. -/
def noSubjectToken : String :=
  Join ["HS256.email=Sada@example.com;exp=N86400",
    toyLib.EncodeSegment
      (toyLib.Mac "HS256" "secret" "HS256.email=Sada@example.com;exp=N86400")] "."

/-- The bytes of an ASCII string. -/
def stringBytes (s : String) : List Nat :=
  s.data.map Char.toNat

/-- The block size in bytes of the hash behind an HMAC algorithm: 64 for
SHA-256, 128 for SHA-384 and SHA-512. -/
def hmacBlockSize (alg : String) : Nat :=
  if alg = "HS256" then 64 else 128

/-- The key block of HMAC (RFC 2104, Go `crypto/hmac`): a key longer than the
block is hashed first, and the key is then filled up with zero bytes to the
block size. -/
def hmacKeyBlock (hash : List Nat → List Nat) (blockSize : Nat) (key : List Nat) :
    List Nat :=
  let k := if key.length > blockSize then hash key else key
  k ++ List.replicate (blockSize - k.length) 0

/-- HMAC over a hash function: the hash of the outer-padded key block
followed by the hash of the inner-padded key block and the message. -/
def hmac (hash : List Nat → List Nat) (blockSize : Nat) (key message : List Nat) :
    List Nat :=
  let block := hmacKeyBlock hash blockSize key
  hash (block.map (fun b => b ^^^ 0x5c) ++
    hash (block.map (fun b => b ^^^ 0x36) ++ message))

/-- The concrete library instance with the HMAC construction over `hash` as
its keyed hash. -/
def hmacLib (hash : List Nat → List Nat) : Lib :=
  { toyLib with
    Mac := fun alg key msg =>
      ⟨(hmac hash (hmacBlockSize alg) (stringBytes key) (stringBytes msg)).map Char.ofNat⟩ }

/-- A small hash function: the decimal digits of a polynomial checksum. -/
def digestBytes (bs : List Nat) : List Nat :=
  stringBytes (Nat.repr (bs.foldl (fun h b => (h * 31 + b) % 1000003) 7))

/-- The process secret followed by a zero byte. -/
def paddedSecret : String :=
  "secret" ++ String.singleton (Char.ofNat 0)

/-- The claims of `sampleToken` signed with the key `paddedSecret` by HMAC
over `digestBytes`. -/
def paddedKeyToken : String :=
  Join [sampleSigningString,
    (hmacLib digestBytes).EncodeSegment
      ((hmacLib digestBytes).Mac "HS256" paddedSecret sampleSigningString)] "."

/-! ## Theorems: the filter query builder -/

theorem buildFilters_eq_foldlM (query : Values) :
    buildFilters query = filterParams.foldlM (stepParam query) initFilterState := by
  have e1 : ("time" ++ " " ++ ">=" ++ " $" : String) = "time >= $" := by decide
  have e2 : ("time" ++ " " ++ "<=" ++ " $" : String) = "time <= $" := by decide
  have e3 : ("depth" ++ " " ++ ">=" ++ " $" : String) = "depth >= $" := by decide
  have e4 : ("depth" ++ " " ++ "<=" ++ " $" : String) = "depth <= $" := by decide
  have e5 : ("magnitude" ++ " " ++ ">=" ++ " $" : String) = "magnitude >= $" := by decide
  have e6 : ("magnitude" ++ " " ++ "<=" ++ " $" : String) = "magnitude <= $" := by decide
  have e7 : ("longitude" ++ " " ++ ">=" ++ " $" : String) = "longitude >= $" := by decide
  have e8 : ("longitude" ++ " " ++ "<=" ++ " $" : String) = "longitude <= $" := by decide
  have e9 : ("latitude" ++ " " ++ ">=" ++ " $" : String) = "latitude >= $" := by decide
  have e10 : ("latitude" ++ " " ++ "<=" ++ " $" : String) = "latitude <= $" := by decide
  simp only [buildFilters, filterParams, List.foldlM, stepParam, FilterParam.pred,
    e1, e2, e3, e4, e5, e6, e7, e8, e9, e10, bind_pure]

theorem stepParam_absent (query : Values) (st : FilterState) (p : FilterParam)
    (h : (query p.name).isSome = false) : stepParam query st p = some st := by
  unfold stepParam addFilter
  cases hq : query p.name with
  | none => rfl
  | some vs => simp [hq] at h

theorem stepParam_present (query : Values) (hwf : WellFormed query) (st : FilterState)
    (p : FilterParam) (h : (query p.name).isSome = true) :
    stepParam query st p = some
      { conditions := st.conditions ++ [p.pred ++ Itoa st.argID]
        args := st.args ++ [firstValue query p.name]
        argID := st.argID + 1 } := by
  unfold stepParam addFilter firstValue
  cases hq : query p.name with
  | none => simp [hq] at h
  | some vs =>
    cases vs with
    | nil => exact absurd hq (hwf p.name)
    | cons v rest => rfl

theorem foldlM_stepParam (query : Values) (hwf : WellFormed query) :
    ∀ (ps : List FilterParam) (st : FilterState),
      ps.foldlM (stepParam query) st = some
        { conditions := st.conditions ++
            numbered st.argID (ps.filter (fun p => (query p.name).isSome))
          args := st.args ++
            (ps.filter (fun p => (query p.name).isSome)).map
              (fun p => firstValue query p.name)
          argID := st.argID + (ps.filter (fun p => (query p.name).isSome)).length } := by
  intro ps
  induction ps with
  | nil => intro st; simp [numbered]
  | cons p ps ih =>
    intro st
    cases h : (query p.name).isSome with
    | false =>
      simp only [List.foldlM, stepParam_absent query st p h, Option.bind_eq_bind,
        Option.some_bind, ih, List.filter_cons, h]
      simp
    | true =>
      simp only [List.foldlM, stepParam_present query hwf st p h, Option.bind_eq_bind,
        Option.some_bind, ih, List.filter_cons, h, if_true, numbered, List.map_cons,
        List.length_cons]
      simp [add_assoc, add_comm]

theorem buildFilters_eq (query : Values) (hwf : WellFormed query) :
    buildFilters query = some
      { conditions := numbered 1 (presentParams query)
        args := (presentParams query).map (fun p => firstValue query p.name)
        argID := 1 + (presentParams query).length } := by
  rw [buildFilters_eq_foldlM, foldlM_stepParam query hwf]
  simp [initFilterState, presentParams]

theorem numbered_length (ps : List FilterParam) :
    ∀ start, (numbered start ps).length = ps.length := by
  induction ps with
  | nil => intro _; rfl
  | cons p ps ih => intro s; simp [numbered, ih]

theorem numbered_getElem? (ps : List FilterParam) :
    ∀ (start : Int) (k : Nat),
      (numbered start ps)[k]? = (ps[k]?).map (fun p => p.pred ++ Itoa (start + k)) := by
  induction ps with
  | nil => intro _ _; simp [numbered]
  | cons p ps ih =>
    intro s k
    cases k with
    | zero => simp [numbered]
    | succ k =>
      simp only [numbered, List.getElem?_cons_succ, ih]
      congr 1
      funext q
      congr 2
      push_cast
      ring

theorem numbered_one_getElem? (ps : List FilterParam) (k : Nat) (p : FilterParam)
    (h : ps[k]? = some p) : (numbered 1 ps)[k]? = some (predicateText p (k + 1)) := by
  rw [numbered_getElem?, h]
  simp only [Option.map_some', predicateText, FilterParam.pred]
  congr 3
  push_cast
  ring

theorem present_has_value (query : Values) (hwf : WellFormed query) (p : FilterParam)
    (hp : p ∈ presentParams query) :
    ∃ v rest, query p.name = some (v :: rest) ∧ firstValue query p.name = v := by
  have h : (query p.name).isSome = true := by
    simpa using (List.mem_filter.mp hp).2
  unfold firstValue
  cases hq : query p.name with
  | none => simp [hq] at h
  | some vs =>
    cases vs with
    | nil => exact absurd hq (hwf p.name)
    | cons v rest => exact ⟨v, rest, rfl, rfl⟩

theorem sampleQuery_wellFormed : WellFormed sampleQuery := by
  intro k; unfold sampleQuery; split_ifs <;> simp

theorem sampleQueryOther_wellFormed : WellFormed sampleQueryOther := by
  intro k; unfold sampleQueryOther; split_ifs <;> simp

theorem duplicateQuery_wellFormed : WellFormed duplicateQuery := by
  intro k; unfold duplicateQuery; split_ifs <;> simp

theorem presentParams_congr (q1 q2 : Values)
    (h : ∀ p ∈ filterParams, (q1 p.name).isSome = (q2 p.name).isSome) :
    presentParams q1 = presentParams q2 := by
  unfold presentParams
  apply List.filter_congr
  intro p hp
  exact h p hp

theorem earthquakeQuery_eq (query : Values) (hwf : WellFormed query) :
    earthquakeQuery query = some
      (queryText (numbered 1 (presentParams query)),
        (presentParams query).map (fun p => firstValue query p.name)) := by
  simp [earthquakeQuery, buildFilters_eq query hwf]

/-- C1: for a query map whose present keys all carry a value, the builder
emits one predicate per present recognized parameter, the k-th predicate is
the one of the k-th present parameter in the fixed order and carries
placeholder `$k`, and the query text is the base SELECT alone (with no
argument) when no recognized parameter is present and otherwise the base
SELECT followed by `" WHERE "` and the predicates joined by `" AND "`. -/
theorem builder_one_predicate_per_present_parameter (query : Values)
    (hwf : WellFormed query) :
    ∃ st : FilterState, buildFilters query = some st ∧
      st.conditions.length = (presentParams query).length ∧
      (∀ (k : Nat) (p : FilterParam), (presentParams query)[k]? = some p →
        st.conditions[k]? = some (predicateText p (k + 1))) ∧
      (presentParams query ≠ [] →
        earthquakeQuery query =
          some (baseSelect ++ (" WHERE " ++ Join st.conditions " AND "), st.args)) ∧
      (presentParams query = [] → earthquakeQuery query = some (baseSelect, [])) := by
  refine ⟨_, buildFilters_eq query hwf, numbered_length _ _, ?_, ?_, ?_⟩
  · intro k p h
    exact numbered_one_getElem? _ k p h
  · intro hne
    rw [earthquakeQuery_eq query hwf]
    have hlen : (numbered 1 (presentParams query)).length > 0 := by
      rw [numbered_length]
      exact List.length_pos.mpr hne
    simp [queryText, hlen]
  · intro he
    rw [earthquakeQuery_eq query hwf, he]
    simp [queryText, numbered]

theorem builder_one_predicate_per_present_parameter_witness :
    WellFormed sampleQuery ∧ (presentParams sampleQuery).length = 2 ∧
    ∃ st : FilterState, buildFilters sampleQuery = some st ∧
      st.conditions.length = (presentParams sampleQuery).length ∧
      (∀ (k : Nat) (p : FilterParam), (presentParams sampleQuery)[k]? = some p →
        st.conditions[k]? = some (predicateText p (k + 1))) ∧
      (presentParams sampleQuery ≠ [] →
        earthquakeQuery sampleQuery =
          some (baseSelect ++ (" WHERE " ++ Join st.conditions " AND "), st.args)) ∧
      (presentParams sampleQuery = [] →
        earthquakeQuery sampleQuery = some (baseSelect, [])) :=
  ⟨sampleQuery_wellFormed, by decide,
    builder_one_predicate_per_present_parameter sampleQuery sampleQuery_wellFormed⟩

/-- C2: the k-th predicate is `<column> <op> $k` for the column and operator
of the k-th present recognized parameter, the k-th argument is the first raw
value of that same parameter, the argument list is as long as the predicate
list, and `depth_min=10&magnitude_max=5` gives the predicate text
`depth >= $1 AND magnitude <= $2` with arguments `["10", "5"]`. -/
theorem predicates_and_arguments_aligned (query : Values) (hwf : WellFormed query) :
    (∃ st : FilterState, buildFilters query = some st ∧
      st.args.length = st.conditions.length ∧
      st.conditions.length = (presentParams query).length ∧
      (∀ (k : Nat) (p : FilterParam), (presentParams query)[k]? = some p →
        st.conditions[k]? = some (p.column ++ " " ++ p.op ++ " $" ++ Itoa (k + 1 : Nat)) ∧
        ∃ v rest, query p.name = some (v :: rest) ∧ st.args[k]? = some v)) ∧
    filterParams.map (fun p => (p.name, p.column ++ " " ++ p.op)) =
      [("time_start", "time >="), ("time_end", "time <="),
       ("depth_min", "depth >="), ("depth_max", "depth <="),
       ("magnitude_min", "magnitude >="), ("magnitude_max", "magnitude <="),
       ("longitude_min", "longitude >="), ("longitude_max", "longitude <="),
       ("latitude_min", "latitude >="), ("latitude_max", "latitude <=")] ∧
    earthquakeQuery sampleQuery =
      some (baseSelect ++ " WHERE " ++ "depth >= $1 AND magnitude <= $2", ["10", "5"]) := by
  refine ⟨⟨_, buildFilters_eq query hwf, ?_, numbered_length _ _, ?_⟩, by decide, by decide⟩
  · simp [numbered_length]
  · intro k p h
    refine ⟨?_, ?_⟩
    · have := numbered_one_getElem? _ k p h
      simpa [predicateText] using this
    · obtain ⟨v, rest, hq, hv⟩ :=
        present_has_value query hwf p (List.getElem?_mem h)
      exact ⟨v, rest, hq, by simp [h, hv]⟩

theorem predicates_and_arguments_aligned_witness :
    WellFormed sampleQuery ∧
    ((∃ st : FilterState, buildFilters sampleQuery = some st ∧
      st.args.length = st.conditions.length ∧
      st.conditions.length = (presentParams sampleQuery).length ∧
      (∀ (k : Nat) (p : FilterParam), (presentParams sampleQuery)[k]? = some p →
        st.conditions[k]? = some (p.column ++ " " ++ p.op ++ " $" ++ Itoa (k + 1 : Nat)) ∧
        ∃ v rest, sampleQuery p.name = some (v :: rest) ∧ st.args[k]? = some v)) ∧
    filterParams.map (fun p => (p.name, p.column ++ " " ++ p.op)) =
      [("time_start", "time >="), ("time_end", "time <="),
       ("depth_min", "depth >="), ("depth_max", "depth <="),
       ("magnitude_min", "magnitude >="), ("magnitude_max", "magnitude <="),
       ("longitude_min", "longitude >="), ("longitude_max", "longitude <="),
       ("latitude_min", "latitude >="), ("latitude_max", "latitude <=")] ∧
    earthquakeQuery sampleQuery =
      some (baseSelect ++ " WHERE " ++ "depth >= $1 AND magnitude <= $2", ["10", "5"])) :=
  ⟨sampleQuery_wellFormed,
    predicates_and_arguments_aligned sampleQuery sampleQuery_wellFormed⟩

/-- C3: two query maps in which the same recognized parameter names are
present give the same query text, whatever their values; the text is a
function of the set of present names only. -/
theorem query_text_independent_of_values (q1 q2 : Values)
    (h1 : WellFormed q1) (h2 : WellFormed q2)
    (hsame : ∀ p ∈ filterParams, (q1 p.name).isSome = (q2 p.name).isSome) :
    ∃ text args1 args2,
      earthquakeQuery q1 = some (text, args1) ∧
      earthquakeQuery q2 = some (text, args2) ∧
      text = queryText (numbered 1 (presentParams q1)) := by
  refine ⟨queryText (numbered 1 (presentParams q1)),
    (presentParams q1).map (fun p => firstValue q1 p.name),
    (presentParams q2).map (fun p => firstValue q2 p.name),
    earthquakeQuery_eq q1 h1, ?_, rfl⟩
  rw [earthquakeQuery_eq q2 h2, presentParams_congr q1 q2 hsame]

theorem query_text_independent_of_values_witness :
    (WellFormed sampleQuery ∧ WellFormed sampleQueryOther ∧
      sampleQuery "depth_min" ≠ sampleQueryOther "depth_min") ∧
    ∃ text args1 args2,
      earthquakeQuery sampleQuery = some (text, args1) ∧
      earthquakeQuery sampleQueryOther = some (text, args2) ∧
      text = queryText (numbered 1 (presentParams sampleQuery)) :=
  ⟨⟨sampleQuery_wellFormed, sampleQueryOther_wellFormed, by decide⟩,
    query_text_independent_of_values sampleQuery sampleQueryOther
      sampleQuery_wellFormed sampleQueryOther_wellFormed (by decide)⟩

/-- C4: a recognized parameter that carries several values contributes its
first value as the one argument at its position and one predicate, and the
values after the first change neither the query text nor the argument list:
any other query map with the same present names and the same first values
gives the same query and arguments. -/
theorem duplicate_parameters_use_first_value (query : Values) (hwf : WellFormed query) :
    ∃ st : FilterState, buildFilters query = some st ∧
      st.conditions.length = (presentParams query).length ∧
      st.args.length = (presentParams query).length ∧
      (presentParams query).Nodup ∧
      (∀ (k : Nat) (p : FilterParam) (v : String) (rest : List String), (presentParams query)[k]? = some p →
        query p.name = some (v :: rest) → st.args[k]? = some v) ∧
      (∀ other : Values, WellFormed other →
        (∀ p ∈ filterParams,
          (other p.name).map List.head? = (query p.name).map List.head?) →
        earthquakeQuery other = earthquakeQuery query) := by
  refine ⟨_, buildFilters_eq query hwf, numbered_length _ _, by simp, ?_, ?_, ?_⟩
  · exact List.Nodup.filter _ (by decide)
  · intro k p v rest hk hq
    simp [hk, firstValue, hq]
  · intro other hwo hsame
    have hpres : presentParams other = presentParams query := by
      apply presentParams_congr
      intro p hp
      have := congrArg Option.isSome (hsame p hp)
      simpa using this
    rw [earthquakeQuery_eq other hwo, earthquakeQuery_eq query hwf, hpres]
    congr 2
    apply List.map_congr_left
    intro p hp
    have hp2 : p ∈ filterParams := (List.mem_filter.mp hp).1
    have := hsame p hp2
    unfold firstValue
    cases ho : other p.name with
    | none =>
      cases hq : query p.name with
      | none => rfl
      | some vs => simp [ho, hq] at this
    | some ws =>
      cases hq : query p.name with
      | none => simp [ho, hq] at this
      | some vs =>
        cases ws with
        | nil => exact absurd ho (hwo p.name)
        | cons w wr =>
          cases vs with
          | nil => exact absurd hq (hwf p.name)
          | cons v vr =>
            simp [ho, hq] at this
            simp [this]

theorem duplicate_parameters_use_first_value_witness :
    (WellFormed duplicateQuery ∧
      duplicateQuery "depth_min" = some ["10", "20", "30"] ∧
      earthquakeQuery duplicateQuery = earthquakeQuery sampleQuery) ∧
    ∃ st : FilterState, buildFilters duplicateQuery = some st ∧
      st.conditions.length = (presentParams duplicateQuery).length ∧
      st.args.length = (presentParams duplicateQuery).length ∧
      (presentParams duplicateQuery).Nodup ∧
      (∀ (k : Nat) (p : FilterParam) (v : String) (rest : List String), (presentParams duplicateQuery)[k]? = some p →
        duplicateQuery p.name = some (v :: rest) → st.args[k]? = some v) ∧
      (∀ other : Values, WellFormed other →
        (∀ p ∈ filterParams,
          (other p.name).map List.head? = (duplicateQuery p.name).map List.head?) →
        earthquakeQuery other = earthquakeQuery duplicateQuery) :=
  ⟨⟨duplicateQuery_wellFormed, by decide, by decide⟩,
    duplicate_parameters_use_first_value duplicateQuery duplicateQuery_wellFormed⟩

/-! ## Theorems: the auth gate -/

theorem replaceFirstChars_append (c : Char) (cs new rest : List Char) :
    replaceFirstChars (c :: cs) new ((c :: cs) ++ rest) = new ++ rest := by
  have hp : (c :: cs).isPrefixOf (c :: (cs ++ rest)) = true := by
    rw [List.isPrefixOf_iff_prefix]
    exact List.prefix_append (c :: cs) rest
  show replaceFirstChars (c :: cs) new (c :: (cs ++ rest)) = new ++ rest
  rw [replaceFirstChars, if_pos hp]
  congr 1
  show List.drop (c :: cs).length ((c :: cs) ++ rest) = rest
  simp

theorem ReplaceFirst_bearer (t : String) : ReplaceFirst ("Bearer " ++ t) "Bearer " "" = t := by
  unfold ReplaceFirst
  have h1 : ("Bearer " ++ t).data = "Bearer ".data ++ t.data := String.data_append _ _
  have h2 : "Bearer ".data = 'B' :: ['e', 'a', 'r', 'e', 'r', ' '] := rfl
  have h3 : "".data = [] := rfl
  rw [h1, h2, h3, replaceFirstChars_append]
  rfl

theorem TrimPrefix_bearer (t : String) : TrimPrefix ("Bearer " ++ t) "Bearer " = t := by
  unfold TrimPrefix
  have h1 : ("Bearer " ++ t).data = "Bearer ".data ++ t.data := String.data_append _ _
  have hp : "Bearer ".data.isPrefixOf ("Bearer ".data ++ t.data) = true := by
    rw [List.isPrefixOf_iff_prefix]
    exact List.prefix_append _ _
  rw [h1, if_pos hp, List.drop_left]

theorem writeHeader_fresh (code : Nat) :
    (ResponseWriter.fresh.WriteHeader code).status = some code ∧
      (ResponseWriter.fresh.WriteHeader code).body = "" := by
  constructor <;> rfl

theorem authMiddleware_reject_empty (lib : Lib) (now : Time) (next : Handler)
    (w : ResponseWriter) (r : Request) (h : r.Header.Get "Authorization" = "") :
    authMiddleware lib now next w r = w.WriteHeader StatusUnauthorized := by
  simp [authMiddleware, h]

theorem authMiddleware_reject_unverified (lib : Lib) (now : Time) (next : Handler)
    (w : ResponseWriter) (r : Request)
    (h : ¬ Verifies lib now (ReplaceFirst (r.Header.Get "Authorization") "Bearer " "")) :
    authMiddleware lib now next w r = w.WriteHeader StatusUnauthorized := by
  unfold authMiddleware
  simp only
  split_ifs with h0
  · rfl
  · cases hp : jwtParse lib now (ReplaceFirst (r.Header.Get "Authorization") "Bearer " "")
        authKeyFunc with
    | error e => rfl
    | ok tok =>
      cases hv : tok.Valid with
      | false => simp [hv]
      | true => exact absurd ⟨tok, hp, hv⟩ h

theorem authMiddleware_reject_no_subject (lib : Lib) (now : Time) (next : Handler)
    (w : ResponseWriter) (r : Request) (tok : Token)
    (hp : jwtParse lib now (ReplaceFirst (r.Header.Get "Authorization") "Bearer " "")
      authKeyFunc = .ok tok)
    (h : ∀ uid, tok.Claims.get "user_id" ≠ some (.str uid)) :
    authMiddleware lib now next w r = w.WriteHeader StatusUnauthorized := by
  unfold authMiddleware
  by_cases h0 : r.Header.Get "Authorization" = ""
  · simp [h0]
  · cases hv : tok.Valid with
    | false => simp [h0, hp, hv]
    | true =>
      cases hu : tok.Claims.get "user_id" with
      | none => simp [h0, hp, hv, hu]
      | some v =>
        cases v with
        | str uid => exact absurd hu (h uid)
        | num n => simp [h0, hp, hv, hu]
        | float v => simp [h0, hp, hv, hu]
        | other j => simp [h0, hp, hv, hu]

theorem authMiddleware_forward (lib : Lib) (now : Time) (next : Handler)
    (w : ResponseWriter) (r : Request) (tok : Token) (uid : String)
    (h0 : r.Header.Get "Authorization" ≠ "")
    (hp : jwtParse lib now (ReplaceFirst (r.Header.Get "Authorization") "Bearer " "")
      authKeyFunc = .ok tok)
    (hv : tok.Valid = true)
    (hu : tok.Claims.get "user_id" = some (.str uid)) :
    authMiddleware lib now next w r =
      next w (r.WithContext (r.ctx.WithValue (.str "user_id") (.str uid))) := by
  unfold authMiddleware
  simp [h0, hp, hv, hu]

theorem sampleToken_parse :
    jwtParse toyLib ⟨5⟩ sampleToken authKeyFunc = .ok
      { Raw := sampleToken, Method := .HMAC "HS256", Alg := "HS256",
        Claims := [("user_id", .str "7"), ("email", .str "ada@example.com"),
          ("exp", .num 86400)],
        Signature := "934460", Valid := true } := by
  rfl

theorem forgedToken_parse :
    jwtParse toyLib ⟨5⟩ forgedToken authKeyFunc = .error (.invalid false true) := by
  rfl

theorem forgedToken_not_verified : ¬ Verifies toyLib ⟨5⟩ forgedToken := by
  rintro ⟨tok, hp, _⟩
  rw [forgedToken_parse] at hp
  cases hp

/-- C5: when the `Authorization` header is missing or empty, when the token
does not verify, or when the verified token has no string `user_id` claim,
`authMiddleware` returns the writer after `WriteHeader(401)` and nothing
else, whatever the next handler is: on a fresh writer the status is 401 and
the body is empty, and the reply is the same for every kind of failure. -/
theorem auth_failure_is_unauthorized (lib : Lib) (now : Time) (next : Handler)
    (w : ResponseWriter) (r : Request)
    (hfail : r.Header.Get "Authorization" = "" ∨
      ¬ Verifies lib now (ReplaceFirst (r.Header.Get "Authorization") "Bearer " "") ∨
      ∃ tok, jwtParse lib now (ReplaceFirst (r.Header.Get "Authorization") "Bearer " "")
          authKeyFunc = .ok tok ∧ ∀ uid, tok.Claims.get "user_id" ≠ some (.str uid)) :
    authMiddleware lib now next w r = w.WriteHeader StatusUnauthorized ∧
      (authMiddleware lib now next ResponseWriter.fresh r).status = some 401 ∧
      (authMiddleware lib now next ResponseWriter.fresh r).body = "" := by
  have key : ∀ w2 : ResponseWriter,
      authMiddleware lib now next w2 r = w2.WriteHeader StatusUnauthorized := by
    intro w2
    rcases hfail with h | h | ⟨tok, hp, hu⟩
    · exact authMiddleware_reject_empty lib now next w2 r h
    · exact authMiddleware_reject_unverified lib now next w2 r h
    · exact authMiddleware_reject_no_subject lib now next w2 r tok hp hu
  refine ⟨key w, ?_, ?_⟩
  · rw [key]; rfl
  · rw [key]; rfl

theorem auth_failure_is_unauthorized_witness :
    (requestWithoutAuth.Header.Get "Authorization" = "" ∧
      authMiddleware toyLib ⟨5⟩ echoSubject ResponseWriter.fresh requestWithoutAuth =
        ResponseWriter.fresh.WriteHeader StatusUnauthorized ∧
      (authMiddleware toyLib ⟨5⟩ echoSubject ResponseWriter.fresh requestWithoutAuth).status
        = some 401 ∧
      (authMiddleware toyLib ⟨5⟩ echoSubject ResponseWriter.fresh requestWithoutAuth).body
        = "") ∧
    (¬ Verifies toyLib ⟨5⟩ forgedToken ∧
      authMiddleware toyLib ⟨5⟩ echoSubject ResponseWriter.fresh
          (requestWithAuth ("Bearer " ++ forgedToken)) =
        ResponseWriter.fresh.WriteHeader StatusUnauthorized ∧
      (authMiddleware toyLib ⟨5⟩ echoSubject ResponseWriter.fresh
          (requestWithAuth ("Bearer " ++ forgedToken))).status = some 401 ∧
      (authMiddleware toyLib ⟨5⟩ echoSubject ResponseWriter.fresh
          (requestWithAuth ("Bearer " ++ forgedToken))).body = "") :=
  ⟨⟨rfl, auth_failure_is_unauthorized toyLib ⟨5⟩ echoSubject ResponseWriter.fresh
      requestWithoutAuth (Or.inl rfl)⟩,
    ⟨forgedToken_not_verified,
      auth_failure_is_unauthorized toyLib ⟨5⟩ echoSubject ResponseWriter.fresh
        (requestWithAuth ("Bearer " ++ forgedToken))
        (Or.inr (Or.inl (by
          have h : (requestWithAuth ("Bearer " ++ forgedToken)).Header.Get "Authorization"
              = "Bearer " ++ forgedToken := rfl
          rw [h, ReplaceFirst_bearer]
          exact forgedToken_not_verified)))⟩⟩

theorem authMiddleware_reject_of_not_accepted (lib : Lib) (now : Time) (r : Request)
    (h : ¬ Accepted lib now r) (next : Handler) (w : ResponseWriter) :
    authMiddleware lib now next w r = w.WriteHeader StatusUnauthorized := by
  by_cases h0 : r.Header.Get "Authorization" = ""
  · exact authMiddleware_reject_empty lib now next w r h0
  · by_cases hv : Verifies lib now (ReplaceFirst (r.Header.Get "Authorization") "Bearer " "")
    · obtain ⟨tok, hp, hval⟩ := hv
      apply authMiddleware_reject_no_subject lib now next w r tok hp
      intro uid hu
      exact h ⟨h0, tok, uid, hp, hval, hu⟩
    · exact authMiddleware_reject_unverified lib now next w r hv

theorem authMiddleware_forward_of_accepted (lib : Lib) (now : Time) (r : Request)
    (h : Accepted lib now r) :
    ∃ tok uid,
      jwtParse lib now (ReplaceFirst (r.Header.Get "Authorization") "Bearer " "")
        authKeyFunc = .ok tok ∧
      tok.Valid = true ∧ tok.Claims.get "user_id" = some (.str uid) ∧
      Forwards lib now r (r.WithContext (r.ctx.WithValue (.str "user_id") (.str uid))) := by
  obtain ⟨h0, tok, uid, hp, hv, hu⟩ := h
  exact ⟨tok, uid, hp, hv, hu, fun next w =>
    authMiddleware_forward lib now next w r tok uid h0 hp hv hu⟩

theorem not_rejected_of_forwards (lib : Lib) (now : Time) (r r2 : Request)
    (hfw : Forwards lib now r r2) :
    ¬ ∀ (next : Handler) (w : ResponseWriter),
        authMiddleware lib now next w r = w.WriteHeader StatusUnauthorized := by
  intro hrej
  have h1 := hfw (fun w _ => w.Write "x") ResponseWriter.fresh
  have h2 := hrej (fun w _ => w.Write "x") ResponseWriter.fresh
  rw [h1] at h2
  have h3 := congrArg ResponseWriter.status h2
  revert h3
  decide

theorem Context.Value_withValue_ne (ctx : Context) (key k : GoValue) (val : GoValue)
    (h : k ≠ key) : (ctx.WithValue k val).Value key = ctx.Value key := by
  simp [Context.WithValue, Context.Value, h]

theorem Context.Value_withValue_same (ctx : Context) (key : GoValue) (val : GoValue) :
    (ctx.WithValue key val).Value key = some val := by
  simp [Context.WithValue, Context.Value]

theorem getUserID_withValue (ctx : Context) (uid : String) :
    getUserIDFromContext (ctx.WithValue (.str "user_id") (.str uid)) = .ok uid := by
  simp [getUserIDFromContext, Context.Value_withValue_same]

theorem sampleRequest_forwards : Forwards toyLib ⟨5⟩ sampleRequest sampleForwarded := by
  intro next w
  have hh : sampleRequest.Header.Get "Authorization" = "Bearer " ++ sampleToken := rfl
  apply authMiddleware_forward toyLib ⟨5⟩ next w _ _ "7"
  · rw [hh]; decide
  · rw [hh, ReplaceFirst_bearer]; exact sampleToken_parse
  · rfl
  · rfl

/-- C7: when `authMiddleware` forwards a request, the token verified, the
accessor `getUserIDFromContext` succeeds on the forwarded request's context
with exactly the `user_id` claim of the verified token, and the forwarded
request is the incoming one with only that context value added: method,
path, query, headers and body are the same and every other context key
keeps its value. -/
theorem forwarded_request_carries_subject (lib : Lib) (now : Time) (r r2 : Request)
    (hfw : Forwards lib now r r2) :
    ∃ tok uid,
      jwtParse lib now (ReplaceFirst (r.Header.Get "Authorization") "Bearer " "")
        authKeyFunc = .ok tok ∧
      tok.Valid = true ∧ tok.Claims.get "user_id" = some (.str uid) ∧
      getUserIDFromContext r2.ctx = .ok uid ∧
      r2 = { r with ctx := r.ctx.WithValue (.str "user_id") (.str uid) } ∧
      r2.Method = r.Method ∧ r2.Path = r.Path ∧ r2.Query = r.Query ∧
      r2.Header = r.Header ∧ r2.Body = r.Body ∧
      (∀ key, key ≠ .str "user_id" → r2.ctx.Value key = r.ctx.Value key) := by
  classical
  have hacc : Accepted lib now r := by
    by_contra hna
    exact not_rejected_of_forwards lib now r r2 hfw
      (fun next w => authMiddleware_reject_of_not_accepted lib now r hna next w)
  obtain ⟨tok, uid, hp, hv, hu, hfw2⟩ := authMiddleware_forward_of_accepted lib now r hacc
  have heq : r2 = r.WithContext (r.ctx.WithValue (.str "user_id") (.str uid)) := by
    by_contra hne
    have h1 := hfw (fun w x => if x = r2 then w.Write "x" else w) ResponseWriter.fresh
    have h2 := hfw2 (fun w x => if x = r2 then w.Write "x" else w) ResponseWriter.fresh
    rw [h1] at h2
    simp only [if_true, if_neg (Ne.symm hne)] at h2
    have h3 := congrArg ResponseWriter.status h2
    revert h3
    decide
  subst heq
  refine ⟨tok, uid, hp, hv, hu, getUserID_withValue _ _, rfl, rfl, rfl, rfl, rfl, rfl, ?_⟩
  intro key hk
  exact Context.Value_withValue_ne _ _ _ _ (Ne.symm hk)

theorem forwarded_request_carries_subject_witness :
    Forwards toyLib ⟨5⟩ sampleRequest sampleForwarded ∧
    ∃ tok uid,
      jwtParse toyLib ⟨5⟩
        (ReplaceFirst (sampleRequest.Header.Get "Authorization") "Bearer " "")
        authKeyFunc = .ok tok ∧
      tok.Valid = true ∧ tok.Claims.get "user_id" = some (.str uid) ∧
      getUserIDFromContext sampleForwarded.ctx = .ok uid ∧
      sampleForwarded =
        { sampleRequest with
          ctx := sampleRequest.ctx.WithValue (.str "user_id") (.str uid) } ∧
      sampleForwarded.Method = sampleRequest.Method ∧
      sampleForwarded.Path = sampleRequest.Path ∧
      sampleForwarded.Query = sampleRequest.Query ∧
      sampleForwarded.Header = sampleRequest.Header ∧
      sampleForwarded.Body = sampleRequest.Body ∧
      (∀ key, key ≠ .str "user_id" →
        sampleForwarded.ctx.Value key = sampleRequest.ctx.Value key) :=
  ⟨sampleRequest_forwards,
    forwarded_request_carries_subject toyLib ⟨5⟩ sampleRequest sampleForwarded
      sampleRequest_forwards⟩

/-- C8, counterexample: a context that the gate never touched, in which
other code stored the string `"intruder"` under the plain string key
`"user_id"`; the accessor does not fail and returns that value as the
subject. -/
theorem plain_string_key_collides :
    strayContext = Context.WithValue Context.Background (.str "user_id") (.str "intruder") ∧
    getUserIDFromContext strayContext = .ok "intruder" ∧
    getUserIDFromContext strayContext ≠ .error "user ID not found in context" := by
  refine ⟨rfl, rfl, ?_⟩
  intro h
  cases h

/-- C8, amended: `getUserIDFromContext` fails with the missing-identity error
exactly when the context holds no string under the plain string key
`"user_id"`, which is the key the gate stores the subject under; it fails on
the empty context, and a value stored under any other key, such as a key of
a defined type, does not change its result. -/
theorem missing_identity_without_string_key (ctx : Context) :
    (getUserIDFromContext ctx = .error "user ID not found in context" ↔
      ∀ uid, ctx.Value (.str "user_id") ≠ some (.str uid)) ∧
    (∀ uid, getUserIDFromContext ctx = .ok uid ↔
      ctx.Value (.str "user_id") = some (.str uid)) ∧
    getUserIDFromContext Context.Background = .error "user ID not found in context" ∧
    (∀ key val, key ≠ .str "user_id" →
      getUserIDFromContext (ctx.WithValue key val) = getUserIDFromContext ctx) ∧
    (∀ val, getUserIDFromContext
      (ctx.WithValue (.named "contextKey" (.str "user_id")) val) =
        getUserIDFromContext ctx) := by
  have hne : ∀ key val, key ≠ GoValue.str "user_id" →
      getUserIDFromContext (ctx.WithValue key val) = getUserIDFromContext ctx := by
    intro key val hk
    unfold getUserIDFromContext
    rw [Context.Value_withValue_ne _ _ _ _ hk]
  refine ⟨?_, ?_, rfl, hne, fun val => hne _ val (by intro h; cases h)⟩
  · unfold getUserIDFromContext
    cases hc : ctx.Value (.str "user_id") with
    | none => simp
    | some v =>
      cases v with
      | str s => simp
      | int n => simp
      | named t u => simp
  · intro uid
    unfold getUserIDFromContext
    cases hc : ctx.Value (.str "user_id") with
    | none => simp
    | some v =>
      cases v with
      | str s => simp
      | int n => simp
      | named t u => simp

/-! ## Theorems: the token service -/

theorem unix_add_day (now : Time) : (now.Add (24 * Hour)).Unix = now.Unix + 86400 := by
  unfold Time.Add Time.Unix Hour
  have h : (24 * (60 * 60 * 1000000000) : Int) = 86400 * 1000000000 := by norm_num
  rw [h, Int.add_mul_ediv_right _ _ (by norm_num)]

theorem unix_le_of_before (t expiry : Time) (h : t.nanos < expiry.nanos) :
    t.Unix ≤ expiry.Unix := by
  unfold Time.Unix
  exact Int.ediv_le_ediv (by norm_num) (le_of_lt h)

theorem createClaims_get_user_id (now : Time) (userID : Int) (email : String) :
    (createClaims now userID email).get "user_id" = some (.str (Itoa userID)) := by
  simp [createClaims, MapClaims.get]

theorem createClaims_get_email (now : Time) (userID : Int) (email : String) :
    (createClaims now userID email).get "email" = some (.str email) := by
  simp [createClaims, MapClaims.get]

theorem createClaims_get_exp (now : Time) (userID : Int) (email : String) :
    (createClaims now userID email).get "exp" = some (.num (now.Add (24 * Hour)).Unix) := by
  simp [createClaims, MapClaims.get]

theorem createClaims_valid (lib : Lib) (now t : Time) (userID : Int) (email : String)
    (hbefore : t.nanos < (now.Add (24 * Hour)).nanos) :
    (createClaims now userID email).Valid lib t.Unix = true := by
  have hle := unix_le_of_before t _ hbefore
  have hiat : (createClaims now userID email).get "iat" = none := by
    simp [createClaims, MapClaims.get]
  have hnbf : (createClaims now userID email).get "nbf" = none := by
    simp [createClaims, MapClaims.get]
  simp only [MapClaims.Valid, VerifyExpiresAt, VerifyIssuedAt, VerifyNotBefore,
    createClaims_get_exp, hiat, hnbf, verifyExp]
  simp [hle]

theorem createToken_eq (lib : Lib) (now : Time) (userID : Int) (email sstr : String)
    (hss : lib.SigningString "HS256" (createClaims now userID email) = some sstr) :
    createToken lib now userID email =
      some (Join [sstr, lib.EncodeSegment (lib.Mac "HS256" "secret" sstr)] ".") := by
  simp [createToken, NewWithClaims, Token.SignedString, SigningMethodHS256,
    SigningMethod.Alg, SigningMethod.Sign, hss]

theorem jwtParse_issued (lib : Lib) (now t : Time) (userID : Int) (email sstr : String)
    (keyFunc : Token → Except String String)
    (hkey : ∀ tok : Token, tok.Method = .HMAC "HS256" → keyFunc tok = .ok "secret")
    (hdec : lib.Decode (Join [sstr, lib.EncodeSegment (lib.Mac "HS256" "secret" sstr)] ".") =
      some { alg := some "HS256", claims := createClaims now userID email,
             signingInput := sstr,
             signature := lib.EncodeSegment (lib.Mac "HS256" "secret" sstr) })
    (hseg : lib.DecodeSegment (lib.EncodeSegment (lib.Mac "HS256" "secret" sstr)) =
      some (lib.Mac "HS256" "secret" sstr))
    (hbefore : t.nanos < (now.Add (24 * Hour)).nanos) :
    jwtParse lib t (Join [sstr, lib.EncodeSegment (lib.Mac "HS256" "secret" sstr)] ".")
        keyFunc = .ok
      { Raw := Join [sstr, lib.EncodeSegment (lib.Mac "HS256" "secret" sstr)] ".",
        Method := .HMAC "HS256", Alg := "HS256",
        Claims := createClaims now userID email,
        Signature := lib.EncodeSegment (lib.Mac "HS256" "secret" sstr), Valid := true } := by
  have hm : GetSigningMethod "HS256" = some (.HMAC "HS256") := by decide
  unfold jwtParse
  simp only [hdec, hm]
  rw [hkey _ rfl]
  simp [createClaims_valid lib now t userID email hbefore, SigningMethod.Verify, hseg]

theorem Join_pair_ne_empty (a b : String) : Join [a, b] "." ≠ "" := by
  intro h
  have hd := congrArg String.data h
  simp [Join] at hd

theorem bearer_append_ne_empty (t : String) : "Bearer " ++ t ≠ "" := by
  intro h
  have hd := congrArg String.data h
  simp at hd

/-- C9: when the library's decoder inverts its encoder on the issued token
(marshalling succeeds, the token decodes to the HS256 header, the issued
claims, the signing string and the signature, and the signature segment
decodes to the keyed hash), the token that `createToken` returns verifies at
every time before its expiry 24 hours after issue, and verification yields
the same subject and email; `authMiddleware` forwards a request whose header
is `"Bearer "` followed by the token with that subject attached, and
`handleVerifyToken` answers with the issued claims. -/
theorem issued_token_verifies (lib : Lib) (now t : Time) (userID : Int)
    (email sstr : String)
    (hss : lib.SigningString "HS256" (createClaims now userID email) = some sstr)
    (hdec : lib.Decode (Join [sstr, lib.EncodeSegment (lib.Mac "HS256" "secret" sstr)] ".") =
      some { alg := some "HS256", claims := createClaims now userID email,
             signingInput := sstr,
             signature := lib.EncodeSegment (lib.Mac "HS256" "secret" sstr) })
    (hseg : lib.DecodeSegment (lib.EncodeSegment (lib.Mac "HS256" "secret" sstr)) =
      some (lib.Mac "HS256" "secret" sstr))
    (hbefore : t.nanos < (now.Add (24 * Hour)).nanos) :
    ∃ token, createToken lib now userID email = some token ∧
      (∃ tok, jwtParse lib t token verifyKeyFunc = .ok tok ∧ tok.Valid = true ∧
        tok.Claims.get "user_id" = some (.str (Itoa userID)) ∧
        tok.Claims.get "email" = some (.str email)) ∧
      (∃ tok, jwtParse lib t token authKeyFunc = .ok tok ∧ tok.Valid = true ∧
        tok.Claims.get "user_id" = some (.str (Itoa userID)) ∧
        tok.Claims.get "email" = some (.str email)) ∧
      (∀ r : Request, r.Header.Get "Authorization" = "Bearer " ++ token →
        Forwards lib t r
          (r.WithContext (r.ctx.WithValue (.str "user_id") (.str (Itoa userID)))) ∧
        getUserIDFromContext
          (r.WithContext (r.ctx.WithValue (.str "user_id") (.str (Itoa userID)))).ctx =
            .ok (Itoa userID)) ∧
      (∀ (w : ResponseWriter) (r : Request),
        r.Header.Get "Authorization" = "Bearer " ++ token →
        handleVerifyToken lib t w r =
          ResponseWriter.Write
            { w with header := w.header.Set "Content-Type" "application/json" }
            (lib.EncodeVerified (createClaims now userID email))) := by
  have hv := jwtParse_issued lib now t userID email sstr verifyKeyFunc
    (fun tok h => by simp [verifyKeyFunc, h]) hdec hseg hbefore
  have ha := jwtParse_issued lib now t userID email sstr authKeyFunc
    (fun tok h => by simp [authKeyFunc, h]) hdec hseg hbefore
  refine ⟨_, createToken_eq lib now userID email sstr hss,
    ⟨_, hv, rfl, createClaims_get_user_id _ _ _, createClaims_get_email _ _ _⟩,
    ⟨_, ha, rfl, createClaims_get_user_id _ _ _, createClaims_get_email _ _ _⟩, ?_, ?_⟩
  · intro r hr
    refine ⟨?_, getUserID_withValue _ _⟩
    intro next w
    apply authMiddleware_forward lib t next w r _ (Itoa userID)
    · rw [hr]; exact bearer_append_ne_empty _
    · rw [hr, ReplaceFirst_bearer]; exact ha
    · rfl
    · exact createClaims_get_user_id _ _ _
  · intro w r hr
    unfold handleVerifyToken
    simp only [hr, TrimPrefix_bearer, hv]
    rw [if_neg (bearer_append_ne_empty _), if_neg (Join_pair_ne_empty _ _)]
    simp

theorem issued_token_verifies_witness :
    (toyLib.SigningString "HS256" (createClaims ⟨0⟩ 7 "ada@example.com") =
        some "HS256.user_id=S7;email=Sada@example.com;exp=N86400" ∧
      (⟨5⟩ : Time).nanos < ((⟨0⟩ : Time).Add (24 * Hour)).nanos ∧
      createToken toyLib ⟨0⟩ 7 "ada@example.com" = some sampleToken) ∧
    ∃ token, createToken toyLib ⟨0⟩ 7 "ada@example.com" = some token ∧
      (∃ tok, jwtParse toyLib ⟨5⟩ token verifyKeyFunc = .ok tok ∧ tok.Valid = true ∧
        tok.Claims.get "user_id" = some (.str (Itoa 7)) ∧
        tok.Claims.get "email" = some (.str "ada@example.com")) ∧
      (∃ tok, jwtParse toyLib ⟨5⟩ token authKeyFunc = .ok tok ∧ tok.Valid = true ∧
        tok.Claims.get "user_id" = some (.str (Itoa 7)) ∧
        tok.Claims.get "email" = some (.str "ada@example.com")) ∧
      (∀ r : Request, r.Header.Get "Authorization" = "Bearer " ++ token →
        Forwards toyLib ⟨5⟩ r
          (r.WithContext (r.ctx.WithValue (.str "user_id") (.str (Itoa 7)))) ∧
        getUserIDFromContext
          (r.WithContext (r.ctx.WithValue (.str "user_id") (.str (Itoa 7)))).ctx =
            .ok (Itoa 7)) ∧
      (∀ (w : ResponseWriter) (r : Request),
        r.Header.Get "Authorization" = "Bearer " ++ token →
        handleVerifyToken toyLib ⟨5⟩ w r =
          ResponseWriter.Write
            { w with header := w.header.Set "Content-Type" "application/json" }
            (toyLib.EncodeVerified (createClaims ⟨0⟩ 7 "ada@example.com"))) :=
  ⟨⟨by decide, by decide, by decide⟩,
    issued_token_verifies toyLib ⟨0⟩ ⟨5⟩ 7 "ada@example.com"
      "HS256.user_id=S7;email=Sada@example.com;exp=N86400"
      (by decide) (by decide) (by decide) (by decide)⟩

/-- C10: the claim set that `createToken` signs has the three entries
`user_id`, `email` and `exp`; `user_id` is the decimal text of the user id,
`email` is the given email, and `exp` is the Unix time of `now` plus 86400
seconds; the token is that claim set signed with the HMAC method HS256 under
the key `"secret"`, the key that the key-lookup callbacks of `authMiddleware`
and `handleVerifyToken` return for every HMAC token. -/
theorem createToken_claims_and_key (lib : Lib) (now : Time) (userID : Int)
    (email : String) :
    (createClaims now userID email).length = 3 ∧
    (createClaims now userID email).map Prod.fst = ["user_id", "email", "exp"] ∧
    (createClaims now userID email).get "user_id" = some (.str (Itoa userID)) ∧
    (createClaims now userID email).get "email" = some (.str email) ∧
    (createClaims now userID email).get "exp" = some (.num (now.Unix + 86400)) ∧
    (Itoa 42 = "42" ∧ Itoa 0 = "0" ∧ Itoa (-7) = "-7") ∧
    createToken lib now userID email =
      (NewWithClaims (.HMAC "HS256") (createClaims now userID email)).SignedString
        lib "secret" ∧
    createToken lib now userID email =
      (lib.SigningString "HS256" (createClaims now userID email)).map
        (fun sstr => Join [sstr, lib.EncodeSegment (lib.Mac "HS256" "secret" sstr)] ".") ∧
    (∀ (tok : Token) (alg : String), tok.Method = .HMAC alg →
      authKeyFunc tok = .ok "secret" ∧ verifyKeyFunc tok = .ok "secret") := by
  refine ⟨rfl, rfl, createClaims_get_user_id _ _ _, createClaims_get_email _ _ _, ?_,
    ⟨by decide, by decide, by decide⟩, rfl, ?_, ?_⟩
  · rw [createClaims_get_exp, unix_add_day]
  · cases hss : lib.SigningString "HS256" (createClaims now userID email) with
    | none =>
      simp [createToken, NewWithClaims, Token.SignedString, SigningMethodHS256,
        SigningMethod.Alg, hss]
    | some sstr => simp [createToken_eq lib now userID email sstr hss]
  · intro tok alg h
    simp [authKeyFunc, verifyKeyFunc, h]

/-! ## Theorems: forged and expired tokens -/

theorem GetSigningMethod_hmac (alg : String) (h : isHMACFamily alg = true) :
    GetSigningMethod alg = some (.HMAC alg) := by
  unfold isHMACFamily at h
  unfold GetSigningMethod
  rw [if_pos (of_decide_eq_true h)]

theorem GetSigningMethod_not_hmac (alg : String) (m : SigningMethod)
    (h : isHMACFamily alg = false) (hm : GetSigningMethod alg = some m) :
    ∀ a, m ≠ .HMAC a := by
  unfold isHMACFamily at h
  have hn := of_decide_eq_false h
  unfold GetSigningMethod at hm
  rw [if_neg hn] at hm
  intro a ha
  subst ha
  split_ifs at hm <;> cases hm

theorem authKeyFunc_non_hmac (tok : Token) (h : ∀ alg, tok.Method ≠ .HMAC alg) :
    authKeyFunc tok = .error "unexpected signing method" := by
  unfold authKeyFunc
  cases hm : tok.Method with
  | HMAC alg => exact absurd hm (h alg)
  | RSA alg => rfl
  | RSAPSS alg => rfl
  | ECDSA alg => rfl
  | unsecured => rfl

theorem verifyKeyFunc_eq_authKeyFunc : verifyKeyFunc = authKeyFunc := rfl

theorem jwtParse_reject_non_hmac (lib : Lib) (now : Time) (tokenString : String)
    (d : DecodedToken) (hdec : lib.Decode tokenString = some d)
    (halg : ∀ alg, d.alg = some alg → isHMACFamily alg = false) (tok : Token) :
    jwtParse lib now tokenString authKeyFunc ≠ .ok tok := by
  unfold jwtParse
  simp only [hdec]
  cases ha : d.alg with
  | none => simp
  | some alg =>
    cases hm : GetSigningMethod alg with
    | none => simp [hm]
    | some m =>
      have hnot := GetSigningMethod_not_hmac alg m (halg alg ha) hm
      have hk : authKeyFunc
          { Raw := tokenString, Method := m, Alg := alg, Claims := d.claims,
            Signature := "", Valid := false } = .error "unexpected signing method" :=
        authKeyFunc_non_hmac _ hnot
      simp [hm, hk]

theorem jwtParse_reject_bad_signature (lib : Lib) (now : Time) (tokenString : String)
    (d : DecodedToken) (alg : String) (hdec : lib.Decode tokenString = some d)
    (ha : d.alg = some alg) (hfam : isHMACFamily alg = true)
    (hsig : lib.DecodeSegment d.signature ≠ some (lib.Mac alg "secret" d.signingInput))
    (tok : Token) :
    jwtParse lib now tokenString authKeyFunc ≠ .ok tok := by
  unfold jwtParse
  simp only [hdec, ha, GetSigningMethod_hmac alg hfam, authKeyFunc]
  have hv : SigningMethod.Verify lib (.HMAC alg) d.signingInput d.signature "secret"
      = false := by
    unfold SigningMethod.Verify
    cases hs : lib.DecodeSegment d.signature with
    | none => rfl
    | some sig =>
      have : sig ≠ lib.Mac alg "secret" d.signingInput := by
        intro h; apply hsig; rw [hs, h]
      simp [this]
  simp [hv]

theorem float64ToInt64_intCast (lib : Lib) (n : Int)
    (hlo : -9223372036854775808 ≤ n) (hhi : n ≤ 9223372036854775807) :
    float64ToInt64 lib (n : ℚ) = n := by
  have ht : truncate (n : ℚ) = n := by
    unfold truncate
    split_ifs
    · exact Int.floor_intCast n
    · exact Int.ceil_intCast n
  unfold float64ToInt64
  rw [ht, if_pos ⟨hlo, hhi⟩]

theorem verifyExpiresAt_num_eq_float (lib : Lib) (claims rest : MapClaims) (n now : Int)
    (hlo : -9223372036854775808 ≤ n) (hhi : n ≤ 9223372036854775807)
    (hc : claims = ("exp", .num n) :: rest) :
    VerifyExpiresAt lib claims now =
      VerifyExpiresAt lib (("exp", .float (n : ℚ)) :: rest) now := by
  subst hc
  simp [VerifyExpiresAt, MapClaims.get, float64ToInt64_intCast lib n hlo hhi]

theorem httpError_fresh_status (msg : String) (code : Nat) :
    (httpError ResponseWriter.fresh msg code).status = some code := rfl

theorem handleVerifyToken_reject (lib : Lib) (now : Time) (w : ResponseWriter)
    (r : Request) (h0 : r.Header.Get "Authorization" ≠ "")
    (h1 : TrimPrefix (r.Header.Get "Authorization") "Bearer " ≠ "")
    (hrej : ∀ tok, jwtParse lib now (TrimPrefix (r.Header.Get "Authorization") "Bearer ")
      verifyKeyFunc ≠ .ok tok) :
    handleVerifyToken lib now w r = httpError w "Invalid token" StatusUnauthorized := by
  unfold handleVerifyToken
  simp only [if_neg h0, if_neg h1]
  cases hp : jwtParse lib now (TrimPrefix (r.Header.Get "Authorization") "Bearer ")
      verifyKeyFunc with
  | error e => rfl
  | ok tok => exact absurd hp (hrej tok)

theorem bothCallersReject_of_rejected (lib : Lib) (now : Time) (tokenString : String)
    (hrej : ∀ tok, jwtParse lib now tokenString authKeyFunc ≠ .ok tok) :
    BothCallersReject lib now tokenString := by
  constructor
  · intro next w r hr
    apply authMiddleware_reject_unverified
    rintro ⟨tok, hp, _⟩
    rw [hr] at hp
    exact hrej tok hp
  · intro w r h0 hr hne
    have key : ∀ w2, handleVerifyToken lib now w2 r =
        httpError w2 "Invalid token" StatusUnauthorized := by
      intro w2
      apply handleVerifyToken_reject lib now w2 r h0
      · rw [hr]; exact hne
      · intro tok; rw [hr, verifyKeyFunc_eq_authKeyFunc]; exact hrej tok
    refine ⟨key w, ?_⟩
    rw [key]
    rfl

theorem hmacKeyBlock_paddedSecret (hash : List Nat → List Nat) (alg : String) :
    hmacKeyBlock hash (hmacBlockSize alg) (stringBytes paddedSecret) =
      hmacKeyBlock hash (hmacBlockSize alg) (stringBytes "secret") := by
  have h1 : stringBytes paddedSecret = [115, 101, 99, 114, 101, 116, 0] := by decide
  have h2 : stringBytes "secret" = [115, 101, 99, 114, 101, 116] := by decide
  have key : ∀ n : Nat, 7 ≤ n →
      hmacKeyBlock hash n [115, 101, 99, 114, 101, 116, 0] =
        hmacKeyBlock hash n [115, 101, 99, 114, 101, 116] := by
    intro n hn
    obtain ⟨m, rfl⟩ : ∃ m, n = m + 7 := ⟨n - 7, by omega⟩
    have e7 : ¬ ([115, 101, 99, 114, 101, 116, 0] : List Nat).length > m + 7 := by
      simp only [List.length_cons, List.length_nil]; omega
    have e6 : ¬ ([115, 101, 99, 114, 101, 116] : List Nat).length > m + 7 := by
      simp only [List.length_cons, List.length_nil]; omega
    simp only [hmacKeyBlock, if_neg e7, if_neg e6]
    simp only [List.length_cons, List.length_nil]
    have a : m + 7 - (0 + 1 + 1 + 1 + 1 + 1 + 1 + 1) = m := by omega
    have b : m + 7 - (0 + 1 + 1 + 1 + 1 + 1 + 1) = m + 1 := by omega
    rw [a, b, List.replicate_succ]
    simp
  rw [h1, h2]
  apply key
  unfold hmacBlockSize
  split_ifs <;> omega

theorem hmacLib_mac_paddedSecret (hash : List Nat → List Nat) (alg msg : String) :
    (hmacLib hash).Mac alg paddedSecret msg = (hmacLib hash).Mac alg "secret" msg := by
  simp only [hmacLib, hmac, hmacKeyBlock_paddedSecret]

/-- C11, counterexample: the key `paddedSecret`, the process secret followed
by a zero byte, is another secret, but HMAC fills every short key up with
zero bytes, so for every hash function the keyed hash under `paddedSecret`
equals the one under `"secret"`; the token `paddedKeyToken`, whose signature
was computed with `paddedSecret`, is accepted: `authMiddleware` forwards the
request and `handleVerifyToken` answers 200. -/
theorem zero_padded_secret_accepted :
    paddedSecret ≠ "secret" ∧
    (∀ (hash : List Nat → List Nat) (alg msg : String),
      (hmacLib hash).Mac alg paddedSecret msg = (hmacLib hash).Mac alg "secret" msg) ∧
    (hmacLib digestBytes).Decode paddedKeyToken = some
      { alg := some "HS256",
        claims := [("user_id", .str "7"), ("email", .str "ada@example.com"),
          ("exp", .num 86400)],
        signingInput := sampleSigningString,
        signature := (hmacLib digestBytes).EncodeSegment
          ((hmacLib digestBytes).Mac "HS256" paddedSecret sampleSigningString) } ∧
    (authMiddleware (hmacLib digestBytes) ⟨5⟩ echoSubject ResponseWriter.fresh
      (requestWithAuth ("Bearer " ++ paddedKeyToken))).status = some 200 ∧
    (authMiddleware (hmacLib digestBytes) ⟨5⟩ echoSubject ResponseWriter.fresh
      (requestWithAuth ("Bearer " ++ paddedKeyToken))).body = "subject=7" ∧
    (handleVerifyToken (hmacLib digestBytes) ⟨5⟩ ResponseWriter.fresh
      (requestWithAuth ("Bearer " ++ paddedKeyToken))).status = some 200 := by
  refine ⟨by decide, hmacLib_mac_paddedSecret, by decide, by decide, by decide, by decide⟩

/-- C11, amended: a token whose header names no HMAC-family algorithm, and a
token of the HMAC family whose signature was computed with a secret other
than the process secret and differs from the keyed hash under `"secret"`, is
rejected by `jwt.Parse` with either key-lookup callback; the callbacks
return an error, and no key, for every signing method that is not HMAC;
`authMiddleware` answers 401 and `handleVerifyToken` answers 401 with
`Invalid token`. -/
theorem forged_token_rejected (lib : Lib) (now : Time) (tokenString : String)
    (d : DecodedToken) (hdec : lib.Decode tokenString = some d)
    (hforged : (∀ alg, d.alg = some alg → isHMACFamily alg = false) ∨
      ∃ alg key, d.alg = some alg ∧ isHMACFamily alg = true ∧ key ≠ "secret" ∧
        d.signature = lib.EncodeSegment (lib.Mac alg key d.signingInput) ∧
        lib.DecodeSegment d.signature = some (lib.Mac alg key d.signingInput) ∧
        lib.Mac alg key d.signingInput ≠ lib.Mac alg "secret" d.signingInput) :
    (∀ tok, jwtParse lib now tokenString authKeyFunc ≠ .ok tok) ∧
    (∀ tok, jwtParse lib now tokenString verifyKeyFunc ≠ .ok tok) ∧
    (∀ tok : Token, (∀ alg, tok.Method ≠ .HMAC alg) →
      authKeyFunc tok = .error "unexpected signing method" ∧
      verifyKeyFunc tok = .error "unexpected signing method") ∧
    (∀ (tok : Token) (key : String),
      authKeyFunc tok = .ok key ∨ verifyKeyFunc tok = .ok key →
      ∃ alg, tok.Method = .HMAC alg) ∧
    BothCallersReject lib now tokenString := by
  have hrej : ∀ tok, jwtParse lib now tokenString authKeyFunc ≠ .ok tok := by
    intro tok
    rcases hforged with h | ⟨alg, key, ha, hfam, _, _, hseg, hne⟩
    · exact jwtParse_reject_non_hmac lib now tokenString d hdec h tok
    · apply jwtParse_reject_bad_signature lib now tokenString d alg hdec ha hfam
      rw [hseg]
      intro h
      exact hne (Option.some.inj h)
  refine ⟨hrej, ?_, ?_, ?_, bothCallersReject_of_rejected lib now tokenString hrej⟩
  · rw [verifyKeyFunc_eq_authKeyFunc]; exact hrej
  · intro tok h
    rw [verifyKeyFunc_eq_authKeyFunc]
    exact ⟨authKeyFunc_non_hmac tok h, authKeyFunc_non_hmac tok h⟩
  · intro tok key h
    rw [verifyKeyFunc_eq_authKeyFunc, or_self] at h
    by_contra hno
    push_neg at hno
    rw [authKeyFunc_non_hmac tok hno] at h
    cases h

theorem forged_token_rejected_witness :
    (toyLib.Decode rsaToken = some
        { alg := some "RS256",
          claims := [("user_id", .str "7"), ("email", .str "ada@example.com"),
            ("exp", .num 86400)],
          signingInput := "RS256.user_id=S7;email=Sada@example.com;exp=N86400",
          signature := "934460" } ∧
      isHMACFamily "RS256" = false ∧
      (∀ tok, jwtParse toyLib ⟨5⟩ rsaToken authKeyFunc ≠ .ok tok) ∧
      BothCallersReject toyLib ⟨5⟩ rsaToken) ∧
    (toyLib.Decode unsecuredToken = some
        { alg := some "none",
          claims := [("user_id", .str "7"), ("email", .str "ada@example.com"),
            ("exp", .num 86400)],
          signingInput := "none.user_id=S7;email=Sada@example.com;exp=N86400",
          signature := "" } ∧
      (∀ tok, jwtParse toyLib ⟨5⟩ unsecuredToken authKeyFunc ≠ .ok tok) ∧
      BothCallersReject toyLib ⟨5⟩ unsecuredToken) ∧
    (toyLib.Decode otherKeyToken = some
        { alg := some "HS256",
          claims := [("user_id", .str "7"), ("email", .str "ada@example.com"),
            ("exp", .num 86400)],
          signingInput := sampleSigningString,
          signature := toyLib.EncodeSegment
            (toyLib.Mac "HS256" "other" sampleSigningString) } ∧
      ("other" : String) ≠ "secret" ∧
      toyLib.Mac "HS256" "other" sampleSigningString ≠
        toyLib.Mac "HS256" "secret" sampleSigningString ∧
      (∀ tok, jwtParse toyLib ⟨5⟩ otherKeyToken authKeyFunc ≠ .ok tok) ∧
      BothCallersReject toyLib ⟨5⟩ otherKeyToken) :=
  have h1 := forged_token_rejected toyLib ⟨5⟩ rsaToken _
    (by decide : toyLib.Decode rsaToken = some
        { alg := some "RS256",
          claims := [("user_id", .str "7"), ("email", .str "ada@example.com"),
            ("exp", .num 86400)],
          signingInput := "RS256.user_id=S7;email=Sada@example.com;exp=N86400",
          signature := "934460" })
    (Or.inl (by intro alg h; cases h; decide))
  have h2 := forged_token_rejected toyLib ⟨5⟩ unsecuredToken _
    (by decide : toyLib.Decode unsecuredToken = some
        { alg := some "none",
          claims := [("user_id", .str "7"), ("email", .str "ada@example.com"),
            ("exp", .num 86400)],
          signingInput := "none.user_id=S7;email=Sada@example.com;exp=N86400",
          signature := "" })
    (Or.inl (by intro alg h; cases h; decide))
  have h3 := forged_token_rejected toyLib ⟨5⟩ otherKeyToken _
    (by decide : toyLib.Decode otherKeyToken = some
        { alg := some "HS256",
          claims := [("user_id", .str "7"), ("email", .str "ada@example.com"),
            ("exp", .num 86400)],
          signingInput := sampleSigningString,
          signature := toyLib.EncodeSegment
            (toyLib.Mac "HS256" "other" sampleSigningString) })
    (Or.inr ⟨"HS256", "other", rfl, by decide, by decide, rfl, rfl, by decide⟩)
  ⟨⟨by decide, by decide, h1.1, h1.2.2.2.2⟩, ⟨by decide, h2.1, h2.2.2.2.2⟩,
    ⟨by decide, by decide, by decide, h3.1, h3.2.2.2.2⟩⟩

theorem replaceFirstChars_of_not_occurs (old new : List Char) :
    ∀ s : List Char, occursIn old s = false → replaceFirstChars old new s = s := by
  intro s
  induction s with
  | nil =>
    intro h
    simp only [occursIn] at h
    simp [replaceFirstChars, h]
  | cons c cs ih =>
    intro h
    simp only [occursIn, Bool.or_eq_false_iff] at h
    rw [replaceFirstChars, if_neg (by simp [h.1]), ih h.2]

theorem replaceFirstChars_of_isPrefix (old : List Char) (s : List Char)
    (h : old.isPrefixOf s = true) :
    replaceFirstChars old [] s = List.drop old.length s := by
  cases s with
  | nil =>
    simp [replaceFirstChars, h]
  | cons c cs =>
    rw [replaceFirstChars, if_pos h]
    rfl

theorem replaceFirstChars_length (old : List Char) :
    ∀ s : List Char, occursIn old s = true →
      (replaceFirstChars old [] s).length + old.length = s.length := by
  intro s
  induction s with
  | nil =>
    intro h
    simp only [occursIn] at h
    have hp := List.isPrefixOf_iff_prefix.mp h
    have hnil : old = [] := List.prefix_nil.mp hp
    subst hnil
    simp [replaceFirstChars]
  | cons c cs ih =>
    intro h
    by_cases hp : old.isPrefixOf (c :: cs) = true
    · rw [replaceFirstChars, if_pos hp]
      have hle := (List.isPrefixOf_iff_prefix.mp hp).length_le
      simp only [List.nil_append, List.length_drop]
      omega
    · have hrest : occursIn old cs = true := by
        simp only [occursIn, Bool.or_eq_true] at h
        rcases h with h | h
        · exact absurd h hp
        · exact h
      rw [replaceFirstChars, if_neg hp]
      simp only [List.length_cons]
      have := ih hrest
      omega

theorem string_eq_of_data (a b : String) (h : a.data = b.data) : a = b := by
  cases a; cases b; simp_all

theorem token_strings_agree_iff (header : String) :
    ReplaceFirst header "Bearer " "" = TrimPrefix header "Bearer " ↔
      hasBearerPrefix header = true ∨ Contains header "Bearer " = false := by
  constructor
  · intro heq
    by_contra hno
    push_neg at hno
    obtain ⟨hp, hc⟩ := hno
    have hp2 : ¬ ("Bearer ".data.isPrefixOf header.data = true) := hp
    have hc2 : occursIn "Bearer ".data header.data = true := by
      simpa [Contains] using hc
    have hlen := replaceFirstChars_length "Bearer ".data header.data hc2
    have hd : (replaceFirstChars "Bearer ".data [] header.data).length =
        header.data.length := by
      have := congrArg (fun x : String => x.data.length) heq
      simpa only [ReplaceFirst, TrimPrefix, if_neg hp2] using this
    have h7 : "Bearer ".data.length = 7 := rfl
    omega
  · intro h
    by_cases hp : hasBearerPrefix header = true
    · have hp2 : "Bearer ".data.isPrefixOf header.data = true := hp
      apply string_eq_of_data
      simp only [ReplaceFirst, TrimPrefix, if_pos hp2]
      exact replaceFirstChars_of_isPrefix _ _ hp2
    · have hc : Contains header "Bearer " = false := by
        rcases h with h | h
        · exact absurd h hp
        · exact h
      have hp2 : ¬ ("Bearer ".data.isPrefixOf header.data = true) := hp
      apply string_eq_of_data
      simp only [ReplaceFirst, TrimPrefix, if_neg hp2]
      exact replaceFirstChars_of_not_occurs _ _ _ hc

theorem handleVerifyToken_accept (lib : Lib) (now : Time) (r : Request) (tok : Token)
    (h0 : r.Header.Get "Authorization" ≠ "")
    (h1 : TrimPrefix (r.Header.Get "Authorization") "Bearer " ≠ "")
    (hp : jwtParse lib now (TrimPrefix (r.Header.Get "Authorization") "Bearer ")
      verifyKeyFunc = .ok tok)
    (hv : tok.Valid = true) :
    (handleVerifyToken lib now ResponseWriter.fresh r).status = some 200 := by
  unfold handleVerifyToken
  simp only [if_neg h0, if_neg h1, hp, hv]
  rfl

/-- C15, counterexample: for the header `misplacedBearerHeader`, in which
`"Bearer "` stands in front of the signature segment, `authMiddleware`
verifies `sampleToken` and forwards the request, while `handleVerifyToken`
verifies the header unchanged and answers 401; and for `"Bearer "` followed
by a correctly signed token without `user_id` both verify the same string,
`handleVerifyToken` answers 200 and `authMiddleware` answers 401. -/
theorem gate_and_verify_endpoint_differ :
    (ReplaceFirst misplacedBearerHeader "Bearer " "" = sampleToken ∧
      TrimPrefix misplacedBearerHeader "Bearer " = misplacedBearerHeader ∧
      ReplaceFirst misplacedBearerHeader "Bearer " "" ≠
        TrimPrefix misplacedBearerHeader "Bearer " ∧
      (authMiddleware toyLib ⟨5⟩ echoSubject ResponseWriter.fresh
        (requestWithAuth misplacedBearerHeader)).status = some 200 ∧
      (handleVerifyToken toyLib ⟨5⟩ ResponseWriter.fresh
        (requestWithAuth misplacedBearerHeader)).status = some 401) ∧
    (ReplaceFirst ("Bearer " ++ noSubjectToken) "Bearer " "" =
        TrimPrefix ("Bearer " ++ noSubjectToken) "Bearer " ∧
      (handleVerifyToken toyLib ⟨5⟩ ResponseWriter.fresh
        (requestWithAuth ("Bearer " ++ noSubjectToken))).status = some 200 ∧
      (authMiddleware toyLib ⟨5⟩ echoSubject ResponseWriter.fresh
        (requestWithAuth ("Bearer " ++ noSubjectToken))).status = some 401) := by
  refine ⟨⟨by decide, by decide, by decide, by decide, by decide⟩,
    ⟨by decide, by decide, by decide⟩⟩

/-- C15, amended: for every header value that starts with `"Bearer "` or does
not contain it, the token string of `authMiddleware` equals the token string
of `handleVerifyToken`, `jwt.Parse` is called with the same string and the
same key lookup in both and gives the same result, and every request with
that header and a non-empty token string that the gate accepts is answered
200 by `handleVerifyToken`. -/
theorem token_strings_agree (header : String)
    (h : hasBearerPrefix header = true ∨ Contains header "Bearer " = false) :
    ReplaceFirst header "Bearer " "" = TrimPrefix header "Bearer " ∧
    (∀ (lib : Lib) (now : Time),
      jwtParse lib now (ReplaceFirst header "Bearer " "") authKeyFunc =
        jwtParse lib now (TrimPrefix header "Bearer ") verifyKeyFunc) ∧
    (∀ (lib : Lib) (now : Time) (r : Request),
      r.Header.Get "Authorization" = header → Accepted lib now r →
      TrimPrefix header "Bearer " ≠ "" →
      (handleVerifyToken lib now ResponseWriter.fresh r).status = some 200) := by
  have heq := (token_strings_agree_iff header).mpr h
  refine ⟨heq, ?_, ?_⟩
  · intro lib now
    rw [heq, verifyKeyFunc_eq_authKeyFunc]
  · intro lib now r hr hacc hne
    obtain ⟨h0, tok, uid, hp, hv, _⟩ := hacc
    apply handleVerifyToken_accept lib now r tok h0
    · rw [hr]; exact hne
    · rw [hr, ← heq, ← hr, verifyKeyFunc_eq_authKeyFunc]; exact hp
    · exact hv

theorem token_strings_agree_witness :
    hasBearerPrefix ("Bearer " ++ sampleToken) = true ∧
    (ReplaceFirst ("Bearer " ++ sampleToken) "Bearer " "" =
      TrimPrefix ("Bearer " ++ sampleToken) "Bearer " ∧
    (∀ (lib : Lib) (now : Time),
      jwtParse lib now (ReplaceFirst ("Bearer " ++ sampleToken) "Bearer " "") authKeyFunc =
        jwtParse lib now (TrimPrefix ("Bearer " ++ sampleToken) "Bearer ") verifyKeyFunc) ∧
    (∀ (lib : Lib) (now : Time) (r : Request),
      r.Header.Get "Authorization" = "Bearer " ++ sampleToken → Accepted lib now r →
      TrimPrefix ("Bearer " ++ sampleToken) "Bearer " ≠ "" →
      (handleVerifyToken lib now ResponseWriter.fresh r).status = some 200)) :=
  ⟨by decide, token_strings_agree ("Bearer " ++ sampleToken) (Or.inl (by decide))⟩

/-! ## Theorems: signup validation and store failures -/

theorem handleSignUp_malformed {σ : Type} (lib : Lib) (now : Time) (codec : Codec)
    (store : Store σ) (s : Session σ) (w : ResponseWriter) (r : Request) (u : User)
    (e : String) (h : codec.DecodeUser r.Body = (u, some e)) :
    handleSignUp lib now codec store s w r =
      Outcome.reply s (httpError w "Invalid request" StatusBadRequest) := by
  simp [handleSignUp, h]

theorem createUser_malformed {σ : Type} (codec : Codec) (store : Store σ) (s : Session σ)
    (w : ResponseWriter) (r : Request) (u : User) (e : String)
    (h : codec.DecodeUser r.Body = (u, some e)) :
    createUser codec store s w r =
      Outcome.reply s (httpError w "Invalid request body" StatusBadRequest) := by
  simp [createUser, h]

theorem createUser_missing_field {σ : Type} (codec : Codec) (store : Store σ)
    (s : Session σ) (w : ResponseWriter) (r : Request) (u : User)
    (h : codec.DecodeUser r.Body = (u, none))
    (hmissing : u.Name = "" ∨ u.Email = "" ∨ u.Password = "") :
    createUser codec store s w r =
      Outcome.reply s
        (httpError w "Missing required fields: name, email, or password"
          StatusBadRequest) := by
  simp [createUser, h, hmissing]

theorem handleSignUp_issues_statements {σ : Type} (lib : Lib) (now : Time)
    (codec : Codec) (store : Store σ) (s : Session σ) (w : ResponseWriter) (r : Request)
    (u : User) (hash : String) (h : codec.DecodeUser r.Body = (u, none))
    (hh : codec.GenerateFromPassword u.Password = .ok hash) :
    (handleSignUp lib now codec store s w r).issued =
      s.issued ++
        [⟨"INSERT INTO users (name, email, password) VALUES ($1, $2, $3) RETURNING id",
            [.text u.Name, .text u.Email, .bytes hash]⟩,
          ⟨"SELECT id, name, email, password FROM users WHERE email = $1",
            [.text u.Email]⟩] := by
  have hs1 : (createUserPrivate codec store s u).2.issued = s.issued ++
      [⟨"INSERT INTO users (name, email, password) VALUES ($1, $2, $3) RETURNING id",
        [.text u.Name, .text u.Email, .bytes hash]⟩] := by
    unfold createUserPrivate
    simp only [hh]
    split <;> rfl
  have hs2 : (getUserByEmail store (createUserPrivate codec store s u).2 u.Email).2.issued
      = s.issued ++
        [⟨"INSERT INTO users (name, email, password) VALUES ($1, $2, $3) RETURNING id",
            [.text u.Name, .text u.Email, .bytes hash]⟩,
          ⟨"SELECT id, name, email, password FROM users WHERE email = $1",
            [.text u.Email]⟩] := by
    simp [getUserByEmail, Store.queryRow, hs1]
  unfold handleSignUp
  simp only [h]
  split
  · exact hs2
  · exact hs2
  · split
    · exact hs2
    · exact hs2

theorem updateUser_fatal {σ : Type} (codec : Codec) (store : Store σ) (s : Session σ)
    (w : ResponseWriter) (r : Request) (e : DbError)
    (hfail : (store.Exec s.db "UPDATE users SET name = $1, email = $2 WHERE id = $3"
      [.text (codec.DecodeUser r.Body).1.Name, .text (codec.DecodeUser r.Body).1.Email,
        .text (codec.Vars r "id")]).1 = .error e) :
    (updateUser codec store s w r).exited = true ∧ (updateUser codec store s w r).w = w := by
  unfold updateUser
  simp [Store.exec, hfail, Outcome.fatal]

theorem createPreference_fatal {σ : Type} (codec : Codec) (store : Store σ)
    (s : Session σ) (w : ResponseWriter) (r : Request) (userID body : String)
    (p : Preference) (e : DbError)
    (hctx : getUserIDFromContext r.ctx = .ok userID)
    (hread : codec.ReadAll r.Body = .ok body)
    (hdec : codec.DecodePreference body = (p, none))
    (hfail : (store.QueryRow s.db
      "\n        INSERT INTO preferences (user_id, depth_min, depth_max, time_start, time_end, magnitude_min, magnitude_max, longitude_min, longitude_max, latitude_min, latitude_max)\n        VALUES ($1, $2, $3, $4, $5, $6, $7, $8, $9, $10, $11) RETURNING id"
      (.text userID :: p.rangeArgs)).1 = .error e) :
    (createPreference codec store s w r).exited = true ∧
      (createPreference codec store s w r).w = w := by
  unfold createPreference
  simp only [hctx, hread, hdec, Store.queryRow, hfail]
  constructor <;> rfl

/-- C13, evaluation at the failing input: the signup body with empty name,
email and password decodes without error; `handleSignUp` then inserts the
user, reads it back, issues a token and answers 200, while `createUser`
answers the same body with 400 and issues no statement. -/
theorem signup_skips_required_field_check :
    toyCodec.DecodeUser emptySignUp.Body =
      ({ Id := 0, Name := "", Email := "", Password := "" }, none) ∧
    (handleSignUp toyLib ⟨0⟩ toyCodec toyStore emptySession ResponseWriter.fresh
      emptySignUp).w.status = some 200 ∧
    createToken toyLib ⟨0⟩ 1 "" = some "HS256.user_id=S1;email=S;exp=N86400.59785" ∧
    (handleSignUp toyLib ⟨0⟩ toyCodec toyStore emptySession ResponseWriter.fresh
      emptySignUp).w.body = toyCodec.EncodeToken "HS256.user_id=S1;email=S;exp=N86400.59785" ∧
    (handleSignUp toyLib ⟨0⟩ toyCodec toyStore emptySession ResponseWriter.fresh
      emptySignUp).issued =
      [⟨"INSERT INTO users (name, email, password) VALUES ($1, $2, $3) RETURNING id",
          [.text "", .text "", .bytes "bcrypt:"]⟩,
        ⟨"SELECT id, name, email, password FROM users WHERE email = $1", [.text ""]⟩] ∧
    (handleSignUp toyLib ⟨0⟩ toyCodec toyStore emptySession ResponseWriter.fresh
      emptySignUp).db = [{ Id := 1, Name := "", Email := "", Password := "bcrypt:" }] ∧
    (createUser toyCodec toyStore emptySession ResponseWriter.fresh
      emptyCreateUser).w.status = some 400 ∧
    (createUser toyCodec toyStore emptySession ResponseWriter.fresh
      emptyCreateUser).issued = [] := by
  refine ⟨by decide, by decide, by decide, by decide, by decide, by decide, by decide,
    by decide⟩

/-- C14, evaluation at the failing input: with a store whose statements all
fail, `updateUser` and `createPreference` terminate the process through
`log.Fatal` without writing a response, `deleteUser` answers 404, and
`createUser`, `updatePreference` and `deletePreference` answer 500 and
return. -/
theorem store_failure_is_fatal_in_some_handlers :
    ((updateUser toyCodec failingStore downSession ResponseWriter.fresh
        updateUserRequest).exited = true ∧
      (updateUser toyCodec failingStore downSession ResponseWriter.fresh
        updateUserRequest).w.status = none) ∧
    ((createPreference toyCodec failingStore downSession ResponseWriter.fresh
        createPreferenceRequest).exited = true ∧
      (createPreference toyCodec failingStore downSession ResponseWriter.fresh
        createPreferenceRequest).w.status = none) ∧
    ((deleteUser toyCodec failingStore downSession ResponseWriter.fresh
        deleteUserRequest).exited = false ∧
      (deleteUser toyCodec failingStore downSession ResponseWriter.fresh
        deleteUserRequest).w.status = some 404) ∧
    ((createUser toyCodec failingStore downSession ResponseWriter.fresh
        fullCreateUser).exited = false ∧
      (createUser toyCodec failingStore downSession ResponseWriter.fresh
        fullCreateUser).w.status = some 500) ∧
    ((updatePreference toyCodec failingStore downSession ResponseWriter.fresh
        updatePreferenceRequest).exited = false ∧
      (updatePreference toyCodec failingStore downSession ResponseWriter.fresh
        updatePreferenceRequest).w.status = some 500) ∧
    ((deletePreference toyCodec failingStore downSession ResponseWriter.fresh
        deletePreferenceRequest).exited = false ∧
      (deletePreference toyCodec failingStore downSession ResponseWriter.fresh
        deletePreferenceRequest).w.status = some 500) := by
  refine ⟨⟨by decide, by decide⟩, ⟨by decide, by decide⟩, ⟨by decide, by decide⟩,
    ⟨by decide, by decide⟩, ⟨by decide, by decide⟩, ⟨by decide, by decide⟩⟩

end EarthquakeVisualizer
